import Mathlib

/-!
# Piper node editor: links between attributes and node templates

A shallow embedding of `piper::Link` (`src/Link.cc`) and of `piper::NodeCreator`
(`src/NodeCreator.cc`), and theorems about them.

Conventions of the embedding.

* `qreal` and `double` are idealised by an arbitrary linearly ordered field `α`
  (for instance `ℚ` or `ℝ`); `std::sqrt` is passed to the code that uses it as a
  function `sqrt : α → α`.  Rounding, infinities and NaN are not represented.
  The section on binary64 arithmetic is the exception: it rounds every operation
  and serves the one counterexample that depends on rounding.
* A `QPainterPath` is the sequence of drawing calls issued on it (`moveTo`,
  `quadTo`, `cubicTo`), in order.  How Qt stores a call is outside the embedding.
* Pointers to attributes are `Option AttrId`, `nullptr` being `none`.  A method
  that dereferences a null pointer, or an iterator outside its list, has no
  defined behaviour in C++: the embedding returns `none` there.  `none` is
  therefore never an error reported to a caller.
* The highlight and unhighlight broadcasts to the nodes only change how nodes are
  drawn and are left out.
-/

namespace Piper

/-! ## Geometry -/

/-- A point of the plane, `QPointF`. -/
structure QPointF (α : Type) where
  x : α
  y : α
deriving DecidableEq

/-- One drawing call recorded in a `QPainterPath`. -/
inductive Element (α : Type) where
  | moveTo (p : QPointF α)
  | quadTo (c endPoint : QPointF α)
  | cubicTo (c1 c2 endPoint : QPointF α)
deriving DecidableEq

/-- A painter path: the drawing calls issued on it, oldest first. -/
abbrev QPainterPath (α : Type) := List (Element α)

/-- The point an element leads to. -/
def Element.target {α : Type} : Element α → QPointF α
  | .moveTo p => p
  | .quadTo _ e => e
  | .cubicTo _ _ e => e

/-- The control points an element carries, in the order of its arguments. -/
def Element.controls {α : Type} : Element α → List (QPointF α)
  | .moveTo _ => []
  | .quadTo c _ => [c]
  | .cubicTo c1 c2 _ => [c1, c2]

/-- Where a path starts: the point of its first element. -/
def QPainterPath.startPoint {α : Type} (path : QPainterPath α) : Option (QPointF α) :=
  path.head?.map Element.target

/-- Where a path ends: the point its last element leads to. -/
def QPainterPath.currentPosition {α : Type} (path : QPainterPath α) : Option (QPointF α) :=
  path.getLast?.map Element.target

/-- All control points of a path, in drawing order. -/
def QPainterPath.controlPoints {α : Type} (path : QPainterPath α) : List (QPointF α) :=
  path.flatMap Element.controls

/-! ## Data model -/

/-- Identity of an attribute (the address of an `Attribute` object). -/
abbrev AttrId := Nat

/-- Identity of a link (the address of a `Link` object). -/
abbrev LinkId := Nat

/-- Role of an attribute: outputs are sources, inputs (`AttributeInput`) are sinks. -/
inductive Direction where
  | source
  | sink
deriving DecidableEq

/-- Modelled from the spec: the class `Attribute` (`Attribute.h`, `Attribute.cc`) is
not among the sources.  An endpoint has a direction, a set of attached links and
a connector position. -/
structure Attribute (α : Type) where
  direction : Direction
  links : Finset LinkId
  connectorPos : QPointF α

/-- Modelled from the spec: `Attribute::connect` registers the link in the attached
set; a sink is single-occupancy, so connecting transfers occupancy to the new
link. -/
def Attribute.connect {α : Type} (a : Attribute α) (link : LinkId) : Attribute α :=
  match a.direction with
  | .source => { a with links := insert link a.links }
  | .sink => { a with links := {link} }

/-- Modelled from the spec: `Attribute::disconnect` removes the link from the
attached set and does nothing when the link is not attached. -/
def Attribute.disconnect {α : Type} (a : Attribute α) (link : LinkId) : Attribute α :=
  { a with links := a.links.erase link }

/-- The two pens of a link. -/
inductive Pen where
  | pen_
  | selected_
deriving DecidableEq

/-- The fields of a `Link` object. -/
structure Link (α : Type) where
  from_ : Option AttrId
  to_ : Option AttrId
  path : QPainterPath α
  selected : Bool
  pen : Pen
  zValue : Int
deriving DecidableEq

/-- What `QGraphicsScene::itemAt` can find: an attribute or some other item. -/
inductive Item where
  | attribute (a : AttrId)
  | other
deriving DecidableEq

/-- A call made on an attribute, recorded for the theorems that speak of calls. -/
inductive Call where
  | connect (a : AttrId) (link : LinkId)
  | disconnect (a : AttrId) (link : LinkId)
deriving DecidableEq

/-- The part of the program state a link method can read or write: the link
itself (`self` is its identity, the `this` pointer), the attributes, the hit
test of the scene, the compatibility predicate `Attribute::accept`, the links
registered in the scene, and the record of calls made on attributes. -/
structure World (α : Type) where
  self : LinkId
  link : Link α
  attributes : AttrId → Attribute α
  itemAt : QPointF α → Option Item
  accept : AttrId → Option AttrId → Bool
  links : List LinkId
  calls : List Call

variable {α : Type} [LinearOrderedField α]

/-! ## Operations of `Link` -/

/-- The call `a->connect(this)` on attribute `a`. -/
def World.attrConnect (w : World α) (a : AttrId) : World α :=
  { w with
    attributes := Function.update w.attributes a ((w.attributes a).connect w.self)
    calls := w.calls ++ [Call.connect a w.self] }

/-- The call `a->disconnect(this)` on attribute `a`. -/
def World.attrDisconnect (w : World α) (a : AttrId) : World α :=
  { w with
    attributes := Function.update w.attributes a ((w.attributes a).disconnect w.self)
    calls := w.calls ++ [Call.disconnect a w.self] }

/-- The call `setPath(path)` of `QGraphicsPathItem`. -/
def World.setPath (w : World α) (path : QPainterPath α) : World α :=
  { w with link := { w.link with path := path } }

/-- The call `setZValue(z)` of `QGraphicsItem`. -/
def World.setZValue (w : World α) (z : Int) : World α :=
  { w with link := { w.link with zValue := z } }

/-- The call `setPen(pen)` of `QAbstractGraphicsShapeItem`. -/
def World.setPen (w : World α) (pen : Pen) : World α :=
  { w with link := { w.link with pen := pen } }

/-- The call `setSelected(selected)` of `QGraphicsItem`. -/
def World.setSelected (w : World α) (selected : Bool) : World α :=
  { w with link := { w.link with selected := selected } }

/-- The cast `qgraphicsitem_cast<AttributeInput*>(item)`: the item itself when it
is an input attribute, a null pointer otherwise. -/
def qgraphicsitem_cast_AttributeInput (w : World α) (item : Option Item) : Option AttrId :=
  match item with
  | some (Item.attribute a) =>
    if (w.attributes a).direction = Direction.sink then some a else none
  | _ => none

/-- The overload `Link::updatePath(QPointF const& start, QPointF const& end)`. -/
def updatePathStartEnd (w : World α) (start endPoint : QPointF α) : World α :=
  let dx := (endPoint.x - start.x) * 0.5
  let dy := endPoint.y - start.y
  let c1 : QPointF α := ⟨start.x + dx, start.y + dy * 0⟩
  let c2 : QPointF α := ⟨start.x + dx, start.y + dy * 1⟩
  let path : QPainterPath α := []
  let path := path ++ [Element.moveTo start]
  let path := path ++ [Element.cubicTo c1 c2 endPoint]
  w.setPath path

/-- The overload `Link::updatePath(QPointF const& end)`; it reads `from_`. -/
def updatePathEnd (w : World α) (endPoint : QPointF α) : Option (World α) :=
  match w.link.from_ with
  | none => none
  | some f =>
    some ((updatePathStartEnd w (w.attributes f).connectorPos endPoint).setZValue (-1))

/-- The overload `Link::updatePath()`; it reads `to_`. -/
def updatePath (w : World α) : Option (World α) :=
  match w.link.to_ with
  | none => none
  | some t => updatePathEnd w (w.attributes t).connectorPos

/-- The method `Link::paint`; the drawing done by `QGraphicsPathItem::paint` does
not change the state. -/
def paint (w : World α) : Option (World α) :=
  let w1 := if w.link.selected then w.setPen Pen.selected_ else w.setPen Pen.pen_
  if w1.link.to_ ≠ none then updatePath w1 else some w1

/-- The method `Link::connectFrom`. -/
def connectFrom (w : World α) (fromAttr : Option AttrId) : Option (World α) :=
  let w1 : World α := { w with link := { w.link with from_ := fromAttr } }
  match w1.link.from_ with
  | none => none
  | some f => some (w1.attrConnect f)

/-- The method `Link::connectTo`. -/
def connectTo (w : World α) (toAttr : Option AttrId) : Option (World α) :=
  let w1 : World α := { w with link := { w.link with to_ := toAttr } }
  match w1.link.to_ with
  | none => none
  | some t => updatePath (w1.attrConnect t)

/-- The method `Link::disconnect`. -/
def disconnect (w : World α) : World α :=
  let w1 := match w.link.from_ with
    | some f => w.attrDisconnect f
    | none => w
  match w1.link.to_ with
  | some t => w1.attrDisconnect t
  | none => w1

/-- The method `Link::isConnected`. -/
def isConnected (w : World α) : Bool :=
  if w.link.from_ = none ∧ w.link.to_ = none then false else true

/-- The method `Link::mousePressEvent` at scene position `scenePos`. -/
def mousePressEvent (w : World α) (scenePos : QPointF α) : Option (World α) :=
  let w1 := w.setSelected true
  match w1.link.to_ with
  | none => none
  | some t => updatePathEnd (w1.attrDisconnect t) scenePos

/-- The method `Link::mouseMoveEvent` at scene position `scenePos`. -/
def mouseMoveEvent (w : World α) (scenePos : QPointF α) : Option (World α) :=
  updatePathEnd w scenePos

/-- The method `Link::mouseReleaseEvent` at scene position `scenePos`. -/
def mouseReleaseEvent (w : World α) (scenePos : QPointF α) : Option (World α) :=
  let input := qgraphicsitem_cast_AttributeInput w (w.itemAt scenePos)
  match input with
  | some i =>
    if w.accept i w.link.from_ then connectTo w (some i) else some w
  | none => connectTo w w.link.to_

/-- A whole drag of the link: a press at `p`, then one move event for each point of
`moves` in order, then a release at `q`. -/
def drag (w : World α) (p : QPointF α) (moves : List (QPointF α)) (q : QPointF α) :
    Option (World α) := do
  let w1 ← mousePressEvent w p
  let w2 ← moves.foldlM mouseMoveEvent w1
  mouseReleaseEvent w2 q

/-! ## Splines -/

/-- The method `Link::computeControlPoint`; the two output parameters `ctrl1` and
`ctrl2` are returned as a pair. -/
def computeControlPoint (sqrt : α → α) (p0 p1 p2 : QPointF α) (t : α) :
    QPointF α × QPointF α :=
  let d01 := sqrt ((p1.x - p0.x) ^ 2 + (p1.y - p0.y) ^ 2)
  let d12 := sqrt ((p2.x - p1.x) ^ 2 + (p2.y - p1.y) ^ 2)
  let fa := t * d01 / (d01 + d12)
  let fb := t * d12 / (d01 + d12)
  let p1x := p1.x - fa * (p2.x - p0.x)
  let p1y := p1.y - fa * (p2.y - p0.y)
  let p2x := p1.x + fb * (p2.x - p0.x)
  let p2y := p1.y + fb * (p2.y - p0.y)
  (⟨p1x, p1y⟩, ⟨p2x, p2y⟩)

/-- The local variable `fa` of `Link::computeControlPoint`, the scaling factor of the
first control point. -/
def scalingFactorA (sqrt : α → α) (p0 p1 p2 : QPointF α) (t : α) : α :=
  let d01 := sqrt ((p1.x - p0.x) ^ 2 + (p1.y - p0.y) ^ 2)
  let d12 := sqrt ((p2.x - p1.x) ^ 2 + (p2.y - p1.y) ^ 2)
  t * d01 / (d01 + d12)

/-- The local variable `fb` of `Link::computeControlPoint`, the scaling factor of the
second control point. -/
def scalingFactorB (sqrt : α → α) (p0 p1 p2 : QPointF α) (t : α) : α :=
  let d01 := sqrt ((p1.x - p0.x) ^ 2 + (p1.y - p0.y) ^ 2)
  let d12 := sqrt ((p2.x - p1.x) ^ 2 + (p2.y - p1.y) ^ 2)
  t * d12 / (d01 + d12)

/-- Body of the first loop of `Link::drawSplines`, at index `i`: two more control
points are appended. -/
def controlPointsStep (sqrt : α → α) (waypoints : List (QPointF α)) (t : α)
    (controlPoints : List (QPointF α)) (i : Nat) : Option (List (QPointF α)) := do
  let p0 ← waypoints[i]?
  let p1 ← waypoints[i + 1]?
  let p2 ← waypoints[i + 2]?
  let c := computeControlPoint sqrt p0 p1 p2 t
  pure (controlPoints ++ [c.1, c.2])

/-- The local variables of `Link::drawSplines` during its second loop: the two
iterators, as positions in their lists, and the path built so far. -/
structure SplineState (α : Type) where
  nextWaypoint : Nat
  ctrl : Nat
  path : QPainterPath α

/-- Body of the second loop of `Link::drawSplines`; the loop counter is not read. -/
def cubicStep (waypoints controlPoints : List (QPointF α)) (st : SplineState α)
    (_i : Nat) : Option (SplineState α) := do
  let c1 ← controlPoints[st.ctrl]?
  let c2 ← controlPoints[st.ctrl + 1]?
  let e ← waypoints[st.nextWaypoint]?
  pure ⟨st.nextWaypoint + 1, st.ctrl + 2, st.path ++ [Element.cubicTo c1 c2 e]⟩

/-- The first loop of `Link::drawSplines`: `i` runs from `0` while
`i < waypoints.size() - 2`.  The size is a signed integer in C++; the truncated
subtraction of `Nat` gives the same, empty, range when the size is below 2. -/
def computeControlPoints (sqrt : α → α) (waypoints : List (QPointF α)) (t : α) :
    Option (List (QPointF α)) :=
  (List.range (waypoints.length - 2)).foldlM (controlPointsStep sqrt waypoints t) []

/-- The path built by `Link::drawSplines`, up to its call of `setPath`.  The second
loop runs `i` from `2` while `i < waypoints.size() - 1`. -/
def drawSplinesPath (sqrt : α → α) (waypoints : List (QPointF α)) (t : α) :
    Option (QPainterPath α) := do
  let controlPoints ← computeControlPoints sqrt waypoints t
  let w0 ← waypoints[0]?
  let path : QPainterPath α := [Element.moveTo w0]
  let c0 ← controlPoints[0]?
  let w1 ← waypoints[1]?
  let path := path ++ [Element.quadTo c0 w1]
  let st ← (List.range' 2 (waypoints.length - 1 - 2)).foldlM
    (cubicStep waypoints controlPoints) ⟨2, 1, path⟩
  let c ← controlPoints[st.ctrl]?
  let e ← waypoints[st.nextWaypoint]?
  pure (st.path ++ [Element.quadTo c e])

/-- The method `Link::drawSplines`. -/
def drawSplines (sqrt : α → α) (w : World α) (waypoints : List (QPointF α)) (t : α) :
    Option (World α) :=
  (drawSplinesPath sqrt waypoints t).map w.setPath

/-! ## The curve of the specification -/

/-- The curve `simpleCurve(start, end)` in the words of the specification: one
cubic Bezier from `start` to `end` with control points `start + (0.5 dx, 0)` and
`start + (0.5 dx, dy)`, where `dx = end.x - start.x` and `dy = end.y - start.y`. -/
def simpleCurve (start endPoint : QPointF α) : QPainterPath α :=
  [Element.moveTo start,
   Element.cubicTo
     ⟨start.x + 0.5 * (endPoint.x - start.x), start.y⟩
     ⟨start.x + 0.5 * (endPoint.x - start.x), start.y + (endPoint.y - start.y)⟩
     endPoint]

/-! ## The spline of the specification -/

/-- Waypoint number `i` of a list; the origin stands in outside the list. -/
def waypointAt (waypoints : List (QPointF α)) (i : Nat) : QPointF α :=
  waypoints.getD i ⟨0, 0⟩

/-- The pair of control points computed from the triple of waypoints `i`, `i + 1`,
`i + 2`. -/
def controlPair (sqrt : α → α) (waypoints : List (QPointF α)) (t : α) (i : Nat) :
    QPointF α × QPointF α :=
  computeControlPoint sqrt (waypointAt waypoints i) (waypointAt waypoints (i + 1))
    (waypointAt waypoints (i + 2)) t

/-- All computed control points in the order of computation: the two points of
pair `0`, then the two of pair `1`, up to pair `n - 3` for `n` waypoints. -/
def controlPointList (sqrt : α → α) (waypoints : List (QPointF α)) (t : α) :
    List (QPointF α) :=
  (List.range (waypoints.length - 2)).flatMap
    (fun i => [(controlPair sqrt waypoints t i).1, (controlPair sqrt waypoints t i).2])

/-- The assembled path in the words of the specification, for `n` waypoints: a
quadratic segment to waypoint `1` with the first control point, one cubic segment
to each waypoint `k` with `2 ≤ k ≤ n - 2` using the second point of pair `k - 2`
and the first point of pair `k - 1`, and a closing quadratic segment into the
last waypoint with the final control point. -/
def splinePath (sqrt : α → α) (waypoints : List (QPointF α)) (t : α) : QPainterPath α :=
  [Element.moveTo (waypointAt waypoints 0),
   Element.quadTo (controlPair sqrt waypoints t 0).1 (waypointAt waypoints 1)]
  ++ (List.range (waypoints.length - 3)).map (fun j =>
      Element.cubicTo (controlPair sqrt waypoints t j).2
        (controlPair sqrt waypoints t (j + 1)).1 (waypointAt waypoints (j + 2)))
  ++ [Element.quadTo (controlPair sqrt waypoints t (waypoints.length - 3)).2
        (waypointAt waypoints (waypoints.length - 1))]

/-! ## Vectors of the specification -/

/-- The difference `p - q` of two points, by coordinates. -/
def QPointF.sub (p q : QPointF α) : QPointF α := ⟨p.x - q.x, p.y - q.y⟩

/-- The sum `p + q` of two points, by coordinates. -/
def QPointF.add (p q : QPointF α) : QPointF α := ⟨p.x + q.x, p.y + q.y⟩

/-- The multiple `c · p` of a point, by coordinates. -/
def QPointF.scale (c : α) (p : QPointF α) : QPointF α := ⟨c * p.x, c * p.y⟩

/-- The Euclidean length `|v|` of a vector, for the square root `sqrt`. -/
def QPointF.norm (sqrt : α → α) (v : QPointF α) : α := sqrt (v.x ^ 2 + v.y ^ 2)

/-! ## Binary64 arithmetic

The theorems on `computeControlPoint` read `double` as an ordered field.  The
definitions of this section follow the arithmetic of the code more closely: a
`double` is the rational number it stands for, and every operation returns the
exact result rounded to the nearest `double`, ties to even.  Overflow, subnormal
numbers and NaN are not represented. -/

/-- Number of halvings that bring `n` below `2`, at most `fuel` of them. -/
def log2Aux : ℕ → ℕ → ℕ
  | 0, _ => 0
  | fuel + 1, n => if n < 2 then 0 else log2Aux fuel (n / 2) + 1

/-- The integer part of the binary logarithm of `n`; `n` halvings always suffice. -/
def floorLog2 (n : ℕ) : ℕ := log2Aux n n

/-- The `double` nearest to the rational `q`: `q` is scaled by a power of two so that
its magnitude lies between `2 ^ 52` and `2 ^ 53`, rounded to the nearest integer,
to the even one on a tie, and scaled back. -/
def roundDouble (q : ℚ) : ℚ :=
  if q.num = 0 then 0 else
  let n := q.num.natAbs
  let d := q.den
  let e0 : Int := (floorLog2 n : Int) - (floorLog2 d : Int)
  let below : Bool :=
    if 0 ≤ e0 then decide (n < d * 2 ^ e0.toNat) else decide (n * 2 ^ (-e0).toNat < d)
  let e : Int := if below then e0 - 1 else e0
  let s : Int := 52 - e
  let num := if 0 ≤ s then n * 2 ^ s.toNat else n
  let den := if 0 ≤ s then d else d * 2 ^ (-s).toNat
  let f := num / den
  let r := num % den
  let m :=
    if 2 * r < den then f else if den < 2 * r then f + 1 else if f % 2 = 0 then f else f + 1
  let mag : ℚ :=
    if 0 ≤ s then (m : ℚ) / ((2 ^ s.toNat : ℕ) : ℚ) else (m : ℚ) * ((2 ^ (-s).toNat : ℕ) : ℚ)
  if q.num < 0 then -mag else mag

/-- The line `double fa = t * d01 / (d01 + d12)` of `Link::computeControlPoint` on
`double` values: the product, the sum and the quotient are each rounded. -/
def scalingFactorA64 (d01 d12 t : ℚ) : ℚ :=
  roundDouble (roundDouble (t * d01) / roundDouble (d01 + d12))

/-- The line `double fb = t * d12 / (d01 + d12)` of `Link::computeControlPoint` on
`double` values. -/
def scalingFactorB64 (d01 d12 t : ℚ) : ℚ :=
  roundDouble (roundDouble (t * d12) / roundDouble (d01 + d12))

/-! ## Node templates (`src/NodeCreator.cc`) -/

/-- A `QHash` with `QString` keys: its entries, at most one for each key. -/
abbrev QHash (ν : Type) := List (String × ν)

/-- The call `QHash::find`: the value stored for `key`; `none` stands for the
iterator `end()`. -/
def QHash.find {ν : Type} (h : QHash ν) (key : String) : Option ν :=
  List.lookup key h

/-- The call `QHash::insert`: the value for `key` is stored, in place of an earlier
value for the same key if there is one. -/
def QHash.insert {ν : Type} (h : QHash ν) (key : String) (value : ν) : QHash ν :=
  (key, value) :: h.filter (fun e => e.1 != key)

/-- The fields of the `NodeCreator` object; `ι` is the type `AttributeInfo`, whose
declaration is not among the sources. -/
structure NodeCreator (ι : Type) where
  available_items_ : QHash (List ι)

/-- The method `NodeCreator::addItem`; the message written by `qDebug` is left out. -/
def NodeCreator.addItem {ι : Type} (c : NodeCreator ι) (type : String)
    (attributes : List ι) : NodeCreator ι :=
  match c.available_items_.find type with
  | some _ => c
  | none => { c with available_items_ := c.available_items_.insert type attributes }

/-- The operations of the class `Node` that `createItem` calls: the constructor
`Node(type, name, stage)`, `setPos` and `addAttribute`.  `Node.h` and `Node.cc` are
not among the sources, so the operations are parameters. -/
structure NodeOps (η ι α : Type) where
  construct : String → String → String → η
  setPos : η → QPointF α → η
  addAttribute : η → ι → η

/-- The method `NodeCreator::createItem`: the returned pointer (`none` is `nullptr`)
together with the state of the creator after the call. -/
def NodeCreator.createItem {η ι : Type} (ops : NodeOps η ι α) (c : NodeCreator ι)
    (type name stage : String) (pos : QPointF α) : Option η × NodeCreator ι :=
  match c.available_items_.find type with
  | none => (none, c)
  | some attributes =>
    let node := ops.construct type name stage
    let node := ops.setPos node pos
    let node := attributes.foldl ops.addAttribute node
    (some node, c)

/-- A node seen through the calls made on it: the arguments of its constructor,
the position given by `setPos`, and the attributes given to `addAttribute`, oldest
first. -/
structure Node (ι α : Type) where
  type : String
  name : String
  stage : String
  pos : QPointF α
  attributes : List ι

/-- The operations of `Node` on such records; a new node is at the origin and has
no attribute. -/
def Node.ops (ι β : Type) [Zero β] : NodeOps (Node ι β) ι β where
  construct := fun type name stage => ⟨type, name, stage, ⟨0, 0⟩, []⟩
  setPos := fun node pos => { node with pos := pos }
  addAttribute := fun node attr => { node with attributes := node.attributes ++ [attr] }

/-! ## Concrete states -/

/-- A square root on the rationals, rounded down to a multiple of the inverse of
the denominator; exact on squares of integers. -/
def ratSqrt (v : ℚ) : ℚ := (Nat.sqrt (v.num.toNat * v.den) : ℚ) / v.den

/-- Three attributes: a source `0` at `(0, 0)`, a sink `1` at `(10, 4)`, and sinks
at `(10, 20)` for every other identity.  Link `7` is attached to `0` and to `1`. -/
def exampleAttributes : AttrId → Attribute ℚ := fun a =>
  if a = 0 then ⟨Direction.source, {7}, ⟨0, 0⟩⟩
  else if a = 1 then ⟨Direction.sink, {7}, ⟨10, 4⟩⟩
  else ⟨Direction.sink, ∅, ⟨10, 20⟩⟩

/-- The hit test of the example scene: sink `1` at `(10, 4)`, sink `2` at `(10, 20)`,
source `0` at `(0, 0)`, a node body at `(5, 5)`, nothing elsewhere. -/
def exampleItemAt : QPointF ℚ → Option Item := fun p =>
  if p = ⟨10, 4⟩ then some (Item.attribute 1)
  else if p = ⟨10, 20⟩ then some (Item.attribute 2)
  else if p = ⟨0, 0⟩ then some (Item.attribute 0)
  else if p = ⟨5, 5⟩ then some Item.other
  else none

/-- A scene with link `7` bound from source `0` to sink `1`; only sink `1` accepts
source `0`. -/
def exampleBound : World ℚ where
  self := 7
  link := ⟨some 0, some 1, simpleCurve ⟨0, 0⟩ ⟨10, 4⟩, false, Pen.pen_, -1⟩
  attributes := exampleAttributes
  itemAt := exampleItemAt
  accept := fun sink source => decide (sink = 1 ∧ source = some 0)
  links := [7]
  calls := []

/-- The same scene with link `7` pending: attached to source `0` only, its free end
at `(3, 3)`. -/
def examplePending : World ℚ where
  self := 7
  link := ⟨some 0, none, simpleCurve ⟨0, 0⟩ ⟨3, 3⟩, false, Pen.pen_, -1⟩
  attributes := Function.update exampleAttributes 1 ⟨Direction.sink, ∅, ⟨10, 4⟩⟩
  itemAt := exampleItemAt
  accept := fun sink source => decide (sink = 1 ∧ source = some 0)
  links := [7]
  calls := []

/-- A creator with one template: type `Reader` with the attributes `in` and `out`
(attribute descriptions are strings here). -/
def exampleCreator : NodeCreator String := ⟨[("Reader", ["in", "out"])]⟩

/-! ## Lemmas shared by the theorems -/

theorem getElem?_eq_waypointAt (waypoints : List (QPointF α)) (i : Nat)
    (h : i < waypoints.length) : waypoints[i]? = some (waypointAt waypoints i) := by
  simp [waypointAt, List.getD, List.getElem?_eq_getElem h]

theorem controlPoints_loop (sqrt : α → α) (waypoints : List (QPointF α)) (t : α) (k : Nat)
    (hk : k + 2 ≤ waypoints.length) :
    (List.range k).foldlM (controlPointsStep sqrt waypoints t) [] =
      some ((List.range k).flatMap (fun i =>
        [(controlPair sqrt waypoints t i).1, (controlPair sqrt waypoints t i).2])) := by
  induction k with
  | zero => rfl
  | succ k ih =>
    rw [List.range_succ, List.foldlM_append, ih (by omega)]
    simp [controlPointsStep, getElem?_eq_waypointAt waypoints k (by omega),
      getElem?_eq_waypointAt waypoints (k + 1) (by omega),
      getElem?_eq_waypointAt waypoints (k + 2) (by omega), controlPair]

theorem updatePathStartEnd_path (w : World α) (start endPoint : QPointF α) :
    (updatePathStartEnd w start endPoint).link.path = simpleCurve start endPoint := by
  simp only [updatePathStartEnd, World.setPath, simpleCurve, List.nil_append,
    List.singleton_append, mul_zero, add_zero, mul_one]
  rw [mul_comm (endPoint.x - start.x) 0.5]

theorem computeControlPoints_eq (sqrt : α → α) (waypoints : List (QPointF α)) (t : α)
    (h : 2 ≤ waypoints.length) :
    computeControlPoints sqrt waypoints t = some (controlPointList sqrt waypoints t) := by
  unfold computeControlPoints controlPointList
  exact controlPoints_loop sqrt waypoints t _ (by omega)

theorem pairs_length {β : Type} (f g : Nat → β) (k : Nat) :
    ((List.range k).flatMap (fun i => [f i, g i])).length = 2 * k := by
  induction k with
  | zero => rfl
  | succ k ih =>
    rw [List.range_succ, List.flatMap_append, List.length_append, ih]
    simp
    omega

theorem pairs_getElem? {β : Type} (f g : Nat → β) (k i : Nat) (hi : i < k) :
    ((List.range k).flatMap (fun i => [f i, g i]))[2 * i]? = some (f i)
      ∧ ((List.range k).flatMap (fun i => [f i, g i]))[2 * i + 1]? = some (g i) := by
  induction k with
  | zero => omega
  | succ k ih =>
    rw [List.range_succ, List.flatMap_append]
    by_cases h : i < k
    · have hl := pairs_length f g k
      obtain ⟨h1, h2⟩ := ih h
      constructor
      · rw [List.getElem?_append_left (by omega)]
        exact h1
      · rw [List.getElem?_append_left (by omega)]
        exact h2
    · have hik : i = k := by omega
      subst hik
      have hl := pairs_length f g i
      constructor
      · rw [List.getElem?_append_right (by omega)]
        simp [hl]
      · rw [List.getElem?_append_right (by omega)]
        simp [hl]

theorem controlPointList_length (sqrt : α → α) (waypoints : List (QPointF α)) (t : α) :
    (controlPointList sqrt waypoints t).length = 2 * (waypoints.length - 2) :=
  pairs_length _ _ _

theorem controlPointList_even (sqrt : α → α) (waypoints : List (QPointF α)) (t : α) (i : Nat)
    (hi : i + 2 < waypoints.length) :
    (controlPointList sqrt waypoints t)[2 * i]? = some (controlPair sqrt waypoints t i).1 :=
  (pairs_getElem? _ _ _ i (by omega)).1

theorem controlPointList_odd (sqrt : α → α) (waypoints : List (QPointF α)) (t : α) (i : Nat)
    (hi : i + 2 < waypoints.length) :
    (controlPointList sqrt waypoints t)[2 * i + 1]? = some (controlPair sqrt waypoints t i).2 :=
  (pairs_getElem? _ _ _ i (by omega)).2

theorem cubic_loop (sqrt : α → α) (waypoints : List (QPointF α)) (t : α)
    (path : QPainterPath α) (m : Nat) (hm : m + 3 ≤ waypoints.length) :
    (List.range' 2 m).foldlM
        (cubicStep waypoints (controlPointList sqrt waypoints t)) ⟨2, 1, path⟩ =
      some ⟨2 + m, 1 + 2 * m, path ++ (List.range m).map (fun j =>
        Element.cubicTo (controlPair sqrt waypoints t j).2
          (controlPair sqrt waypoints t (j + 1)).1 (waypointAt waypoints (j + 2)))⟩ := by
  induction m with
  | zero => simp
  | succ m ih =>
    rw [List.range'_1_concat, List.foldlM_append, ih (by omega)]
    have h1 := controlPointList_odd sqrt waypoints t m (by omega)
    have h2 := controlPointList_even sqrt waypoints t (m + 1) (by omega)
    have h3 := getElem?_eq_waypointAt waypoints (2 + m) (by omega)
    have e1 : 1 + 2 * m = 2 * m + 1 := by omega
    have e2 : 2 * m + 1 + 1 = 2 * (m + 1) := by omega
    simp only [List.foldlM_cons, List.foldlM_nil, cubicStep, e1, e2, h1, h2, h3,
      Option.some_bind, Option.bind_eq_bind, bind_pure, pure, Option.bind_some,
      List.range_succ, List.map_append, List.map_cons, List.map_nil, List.append_assoc]
    congr 2
    · omega
    · rw [Nat.add_comm m 2]

theorem drawSplinesPath_eq (sqrt : α → α) (waypoints : List (QPointF α)) (t : α)
    (h : 3 ≤ waypoints.length) :
    drawSplinesPath sqrt waypoints t = some (splinePath sqrt waypoints t) := by
  have hc := computeControlPoints_eq sqrt waypoints t (by omega)
  have hw0 := getElem?_eq_waypointAt waypoints 0 (by omega)
  have hw1 := getElem?_eq_waypointAt waypoints 1 (by omega)
  have hc0 := controlPointList_even sqrt waypoints t 0 (by omega)
  have hloop := cubic_loop sqrt waypoints t
    [Element.moveTo (waypointAt waypoints 0),
     Element.quadTo (controlPair sqrt waypoints t 0).1 (waypointAt waypoints 1)]
    (waypoints.length - 1 - 2) (by omega)
  have hlast := controlPointList_odd sqrt waypoints t (waypoints.length - 3) (by omega)
  have hwl := getElem?_eq_waypointAt waypoints (waypoints.length - 1) (by omega)
  have e1 : 1 + 2 * (waypoints.length - 1 - 2) = 2 * (waypoints.length - 3) + 1 := by omega
  have e2 : 2 + (waypoints.length - 1 - 2) = waypoints.length - 1 := by omega
  have e3 : waypoints.length - 1 - 2 = waypoints.length - 3 := by omega
  rw [e1, e2, e3] at hloop
  simp only [Nat.mul_zero] at hc0
  simp only [drawSplinesPath, hc, hw0, hw1, hc0, Option.some_bind, Option.bind_eq_bind,
    Option.bind_some, List.singleton_append, List.cons_append, List.nil_append, hloop,
    hlast, hwl, pure, splinePath, e3]

theorem pairs_shift {β : Type} (f g : Nat → β) (k : Nat) :
    f 0 :: ((List.range k).flatMap (fun j => [g j, f (j + 1)]) ++ [g k]) =
      (List.range (k + 1)).flatMap (fun i => [f i, g i]) := by
  induction k with
  | zero => rfl
  | succ k ih =>
    rw [List.range_succ (k + 1), List.flatMap_append, ← ih, List.range_succ,
      List.flatMap_append]
    simp

theorem splinePath_controlPoints (sqrt : α → α) (waypoints : List (QPointF α)) (t : α)
    (h : 3 ≤ waypoints.length) :
    (splinePath sqrt waypoints t).controlPoints = controlPointList sqrt waypoints t := by
  have e : waypoints.length - 2 = waypoints.length - 3 + 1 := by omega
  unfold controlPointList
  rw [e, ← pairs_shift]
  simp [splinePath, QPainterPath.controlPoints, Element.controls, List.flatMap_map,
    List.flatMap_append]

theorem sq_add_sq_eq_zero {x y : α} (h : x ^ 2 + y ^ 2 = 0) : x = 0 ∧ y = 0 := by
  have hx := sq_nonneg x
  have hy := sq_nonneg y
  have hx0 : x ^ 2 = 0 := by linarith
  have hy0 : y ^ 2 = 0 := by linarith
  exact ⟨pow_eq_zero_iff (two_ne_zero) |>.1 hx0, pow_eq_zero_iff (two_ne_zero) |>.1 hy0⟩

theorem norm_sub_eq_zero (sqrt : α → α) (hz : ∀ v, 0 ≤ v → sqrt v = 0 → v = 0)
    (p q : QPointF α) (h : (p.sub q).norm sqrt = 0) : q = p := by
  have z := hz _ (by positivity) h
  simp only [QPointF.sub] at z
  obtain ⟨a1, a2⟩ := sq_add_sq_eq_zero z
  cases p
  cases q
  simp only [QPointF.mk.injEq] at *
  exact ⟨by linarith, by linarith⟩

theorem norm_sum_ne_zero (sqrt : α → α) (hnn : ∀ v, 0 ≤ sqrt v)
    (hz : ∀ v, 0 ≤ v → sqrt v = 0 → v = 0) (p0 p1 p2 : QPointF α)
    (hne : ¬ (p0 = p1 ∧ p1 = p2)) :
    (p1.sub p0).norm sqrt + (p2.sub p1).norm sqrt ≠ 0 := by
  intro hsum
  have h1 : 0 ≤ (p1.sub p0).norm sqrt := hnn _
  have h2 : 0 ≤ (p2.sub p1).norm sqrt := hnn _
  exact hne ⟨norm_sub_eq_zero sqrt hz p1 p0 (by linarith),
    norm_sub_eq_zero sqrt hz p2 p1 (by linarith)⟩

theorem connect_connectorPos {β : Type} (a : Attribute β) (l : LinkId) :
    (a.connect l).connectorPos = a.connectorPos := by
  unfold Attribute.connect
  cases a.direction <;> rfl

theorem mem_connect_links {β : Type} (a : Attribute β) (l : LinkId) :
    l ∈ (a.connect l).links := by
  unfold Attribute.connect
  cases a.direction <;> simp

theorem updatePathEnd_spec (w : World α) (s : AttrId) (e : QPointF α)
    (hfrom : w.link.from_ = some s) :
    ∃ w1, updatePathEnd w e = some w1
      ∧ w1.link.path = simpleCurve (w.attributes s).connectorPos e
      ∧ w1.link.from_ = w.link.from_ ∧ w1.link.to_ = w.link.to_
      ∧ w1.link.selected = w.link.selected
      ∧ w1.self = w.self ∧ w1.attributes = w.attributes ∧ w1.itemAt = w.itemAt
      ∧ w1.accept = w.accept ∧ w1.links = w.links ∧ w1.calls = w.calls := by
  refine ⟨(updatePathStartEnd w (w.attributes s).connectorPos e).setZValue (-1),
    by simp only [updatePathEnd, hfrom], ?_, rfl, rfl, rfl, rfl, rfl, rfl, rfl, rfl, rfl⟩
  exact updatePathStartEnd_path w _ e

theorem connectTo_spec (w : World α) (s k : AttrId) (hfrom : w.link.from_ = some s) :
    ∃ w1, connectTo w (some k) = some w1
      ∧ w1.link.path = simpleCurve (w.attributes s).connectorPos (w.attributes k).connectorPos
      ∧ w1.link.from_ = some s ∧ w1.link.to_ = some k
      ∧ w1.link.selected = w.link.selected
      ∧ w1.self = w.self
      ∧ w1.attributes = Function.update w.attributes k ((w.attributes k).connect w.self)
      ∧ w1.itemAt = w.itemAt ∧ w1.accept = w.accept ∧ w1.links = w.links
      ∧ w1.calls = w.calls ++ [Call.connect k w.self] := by
  obtain ⟨w1, h1, hp, hf, ht, hs, hself, ha, hi, hacc, hl, hc⟩ :=
    updatePathEnd_spec
      (World.attrConnect { w with link := { w.link with to_ := some k } } k) s
      ((Function.update w.attributes k ((w.attributes k).connect w.self)) k).connectorPos
      hfrom
  refine ⟨w1, ?_, ?_, ?_, ?_, ?_, ?_, ?_, ?_, ?_, ?_, ?_⟩
  · simp only [connectTo, updatePath, World.attrConnect]
    exact h1
  · rw [hp]
    simp only [World.attrConnect, Function.update_same, connect_connectorPos]
    by_cases hsk : s = k
    · subst hsk
      simp only [Function.update_same, connect_connectorPos]
    · simp only [Function.update_noteq hsk]
  · rw [hf]; exact hfrom
  · rw [ht]; rfl
  · rw [hs]; rfl
  · rw [hself]; rfl
  · rw [ha]; rfl
  · rw [hi]; rfl
  · rw [hacc]; rfl
  · rw [hl]; rfl
  · rw [hc]; rfl

theorem disconnect_connectorPos {β : Type} (a : Attribute β) (l : LinkId) :
    (a.disconnect l).connectorPos = a.connectorPos := rfl

theorem not_mem_disconnect_links {β : Type} (a : Attribute β) (l : LinkId) :
    l ∉ (a.disconnect l).links := by
  simp [Attribute.disconnect]

theorem mousePressEvent_spec (w : World α) (s k : AttrId) (p : QPointF α)
    (hfrom : w.link.from_ = some s) (hto : w.link.to_ = some k) :
    ∃ w1, mousePressEvent w p = some w1
      ∧ w1.link.path = simpleCurve (w.attributes s).connectorPos p
      ∧ w1.link.from_ = some s ∧ w1.link.to_ = some k
      ∧ w1.link.selected = true
      ∧ w1.self = w.self
      ∧ w1.attributes = Function.update w.attributes k ((w.attributes k).disconnect w.self)
      ∧ w1.itemAt = w.itemAt ∧ w1.accept = w.accept ∧ w1.links = w.links
      ∧ w1.calls = w.calls ++ [Call.disconnect k w.self] := by
  obtain ⟨w1, h1, hp, hf, ht, hs, hself, ha, hi, hacc, hl, hc⟩ :=
    updatePathEnd_spec (World.attrDisconnect (w.setSelected true) k) s p hfrom
  refine ⟨w1, ?_, ?_, ?_, ?_, ?_, ?_, ?_, ?_, ?_, ?_, ?_⟩
  · have hsel : (w.setSelected true).link.to_ = some k := hto
    unfold mousePressEvent
    simp only [hsel]
    exact h1
  · rw [hp]
    simp only [World.attrDisconnect, World.setSelected]
    by_cases hsk : s = k
    · subst hsk
      simp only [Function.update_same, disconnect_connectorPos]
    · simp only [Function.update_noteq hsk]
  · rw [hf]; exact hfrom
  · rw [ht]; exact hto
  · rw [hs]; rfl
  · rw [hself]; rfl
  · rw [ha]; rfl
  · rw [hi]; rfl
  · rw [hacc]; rfl
  · rw [hl]; rfl
  · rw [hc]; rfl

theorem release_over_rejecting_sink_unchanged (w : World α) (p : QPointF α) (k : AttrId)
    (hitem : w.itemAt p = some (Item.attribute k))
    (hsink : (w.attributes k).direction = Direction.sink)
    (hreject : w.accept k w.link.from_ = false) :
    mouseReleaseEvent w p = some w := by
  simp [mouseReleaseEvent, hitem, qgraphicsitem_cast_AttributeInput, hsink, hreject]

theorem mouseMoveEvents_spec (moves : List (QPointF α)) (w : World α) (s : AttrId)
    (hfrom : w.link.from_ = some s) :
    ∃ w1, moves.foldlM mouseMoveEvent w = some w1
      ∧ w1.link.path = (match moves.getLast? with
          | none => w.link.path
          | some e => simpleCurve (w.attributes s).connectorPos e)
      ∧ w1.link.from_ = w.link.from_ ∧ w1.link.to_ = w.link.to_
      ∧ w1.link.selected = w.link.selected
      ∧ w1.self = w.self ∧ w1.attributes = w.attributes ∧ w1.itemAt = w.itemAt
      ∧ w1.accept = w.accept ∧ w1.links = w.links ∧ w1.calls = w.calls := by
  induction moves generalizing w with
  | nil => exact ⟨w, rfl, rfl, rfl, rfl, rfl, rfl, rfl, rfl, rfl, rfl, rfl⟩
  | cons e rest ih =>
    obtain ⟨w1, h1, hp, hf, ht, hs, hself, ha, hi, hacc, hl, hc⟩ :=
      updatePathEnd_spec w s e hfrom
    obtain ⟨w2, h2, hp2, hf2, ht2, hs2, hself2, ha2, hi2, hacc2, hl2, hc2⟩ :=
      ih w1 (hf.trans hfrom)
    refine ⟨w2, ?_, ?_, hf2.trans hf, ht2.trans ht, hs2.trans hs, hself2.trans hself,
      ha2.trans ha, hi2.trans hi, hacc2.trans hacc, hl2.trans hl, hc2.trans hc⟩
    · simp only [List.foldlM_cons, mouseMoveEvent, h1, Option.bind_eq_bind, Option.some_bind]
      exact h2
    · rw [hp2, ha, hp]
      cases rest with
      | nil => rfl
      | cons e2 rest2 =>
        have hne : (e2 :: rest2).getLast? = some ((e2 :: rest2).getLast (by simp)) :=
          List.getLast?_eq_getLast _ _
        simp only [List.getLast?_cons_cons, hne]

theorem disconnect_disconnect {β : Type} (a : Attribute β) (l : LinkId) :
    (a.disconnect l).disconnect l = a.disconnect l := by
  simp [Attribute.disconnect]

theorem disconnect_link {β : Type} (w : World β) : (disconnect w).link = w.link := by
  rcases hf : w.link.from_ with _ | f <;> rcases ht : w.link.to_ with _ | t <;>
    simp [disconnect, World.attrDisconnect, hf, ht]

theorem disconnect_self {β : Type} (w : World β) : (disconnect w).self = w.self := by
  rcases hf : w.link.from_ with _ | f <;> rcases ht : w.link.to_ with _ | t <;>
    simp [disconnect, World.attrDisconnect, hf, ht]

theorem disconnect_attributes {β : Type} (w : World β) (a : AttrId) :
    (disconnect w).attributes a =
      if some a = w.link.from_ ∨ some a = w.link.to_ then (w.attributes a).disconnect w.self
      else w.attributes a := by
  rcases hf : w.link.from_ with _ | f <;> rcases ht : w.link.to_ with _ | t
  · simp [disconnect, hf, ht]
  · by_cases h1 : a = t
    · subst h1
      simp [disconnect, World.attrDisconnect, hf, ht]
    · simp [disconnect, World.attrDisconnect, hf, ht, Function.update_noteq h1, h1]
  · by_cases h2 : a = f
    · subst h2
      simp [disconnect, World.attrDisconnect, hf, ht]
    · simp [disconnect, World.attrDisconnect, hf, ht, Function.update_noteq h2, h2]
  · by_cases h1 : a = t
    · subst h1
      by_cases h2 : a = f
      · subst h2
        simp [disconnect, World.attrDisconnect, hf, ht, disconnect_disconnect]
      · simp [disconnect, World.attrDisconnect, hf, ht, Function.update_noteq h2]
    · by_cases h2 : a = f
      · subst h2
        simp [disconnect, World.attrDisconnect, hf, ht, Function.update_noteq h1, h1]
      · simp [disconnect, World.attrDisconnect, hf, ht, Function.update_noteq h1,
          Function.update_noteq h2, h1, h2]

theorem paint_spec (w : World α) (s k : AttrId)
    (hfrom : w.link.from_ = some s) (hto : w.link.to_ = some k) :
    ∃ w1, paint w = some w1
      ∧ w1.link.path = simpleCurve (w.attributes s).connectorPos (w.attributes k).connectorPos
      ∧ w1.link.from_ = some s ∧ w1.link.to_ = some k
      ∧ w1.link.selected = w.link.selected
      ∧ w1.self = w.self ∧ w1.attributes = w.attributes ∧ w1.itemAt = w.itemAt
      ∧ w1.accept = w.accept ∧ w1.links = w.links ∧ w1.calls = w.calls := by
  have key : ∀ pen : Pen, ∃ w1, updatePath (w.setPen pen) = some w1
      ∧ w1.link.path = simpleCurve (w.attributes s).connectorPos (w.attributes k).connectorPos
      ∧ w1.link.from_ = some s ∧ w1.link.to_ = some k
      ∧ w1.link.selected = w.link.selected
      ∧ w1.self = w.self ∧ w1.attributes = w.attributes ∧ w1.itemAt = w.itemAt
      ∧ w1.accept = w.accept ∧ w1.links = w.links ∧ w1.calls = w.calls := by
    intro pen
    obtain ⟨w1, h1, hp, hf, ht, hs, hself, ha, hi, hacc, hl, hc⟩ :=
      updatePathEnd_spec (w.setPen pen) s ((w.setPen pen).attributes k).connectorPos hfrom
    have hto1 : (w.setPen pen).link.to_ = some k := hto
    refine ⟨w1, ?_, hp, hf.trans hfrom, ht.trans hto, hs, hself, ha, hi, hacc, hl, hc⟩
    unfold updatePath
    simp only [hto1]
    exact h1
  have hne : ∀ pen : Pen, (w.setPen pen).link.to_ ≠ none := by
    intro pen h
    have hto1 : (w.setPen pen).link.to_ = some k := hto
    rw [hto1] at h
    cases h
  have hpaint : ∃ pen : Pen, paint w = updatePath (w.setPen pen) := by
    rcases Bool.eq_false_or_eq_true w.link.selected with hsel | hsel
    · refine ⟨Pen.selected_, ?_⟩
      simp only [paint, hsel, if_true]
      exact if_pos (hne _)
    · refine ⟨Pen.pen_, ?_⟩
      simp only [paint, hsel, Bool.false_eq_true, if_false]
      exact if_pos (hne _)
  obtain ⟨pen, hpen⟩ := hpaint
  rw [hpen]
  exact key pen

/-! ## The single curve -/

/-- Claim C1: for all points `start` and `end`, the overload of `updatePath` with two
points sets the path to `moveTo(start)` followed by one cubic segment with control
points `(start.x + 0.5 (end.x - start.x), start.y)` and
`(start.x + 0.5 (end.x - start.x), start.y + (end.y - start.y))` ending at `end`;
the path starts at `start` and ends at `end`. -/
theorem updatePathStartEnd_sets_simple_curve (w : World α) (start endPoint : QPointF α) :
    (updatePathStartEnd w start endPoint).link.path =
        [Element.moveTo start,
         Element.cubicTo
           ⟨start.x + 0.5 * (endPoint.x - start.x), start.y⟩
           ⟨start.x + 0.5 * (endPoint.x - start.x), start.y + (endPoint.y - start.y)⟩
           endPoint]
      ∧ (updatePathStartEnd w start endPoint).link.path.startPoint = some start
      ∧ (updatePathStartEnd w start endPoint).link.path.currentPosition = some endPoint := by
  have h := updatePathStartEnd_path w start endPoint
  rw [h]
  refine ⟨rfl, ?_, ?_⟩ <;>
    simp [simpleCurve, QPainterPath.startPoint, QPainterPath.currentPosition, Element.target]

/-! ## The fitted spline -/

/-- Claim C2: for every list of `n ≥ 3` waypoints and every tension, `drawSplines`
sets a path made of one `moveTo` followed by exactly `n - 1` segments (none of them
a `moveTo`); the path starts at the first waypoint and ends at the last one. -/
theorem drawSplines_segment_count (sqrt : α → α) (w : World α)
    (waypoints : List (QPointF α)) (t : α) (h : 3 ≤ waypoints.length) :
    ∃ (first : QPointF α) (segments : List (Element α)),
      drawSplines sqrt w waypoints t = some (w.setPath (Element.moveTo first :: segments))
        ∧ segments.length = waypoints.length - 1
        ∧ (∀ s ∈ segments, ∀ p, s ≠ Element.moveTo p)
        ∧ QPainterPath.startPoint (Element.moveTo first :: segments) = waypoints.head?
        ∧ QPainterPath.currentPosition (Element.moveTo first :: segments)
            = waypoints.getLast? := by
  have hp := drawSplinesPath_eq sqrt waypoints t h
  have h0 := getElem?_eq_waypointAt waypoints 0 (by omega)
  have hl := getElem?_eq_waypointAt waypoints (waypoints.length - 1) (by omega)
  refine ⟨waypointAt waypoints 0, (splinePath sqrt waypoints t).tail, ?_, ?_, ?_, ?_, ?_⟩
  · simp only [drawSplines, hp, Option.map_some', splinePath, List.cons_append,
      List.nil_append, List.tail_cons]
  · simp [splinePath]
    omega
  · intro s hs p
    simp only [splinePath, List.cons_append, List.nil_append, List.tail_cons, List.mem_cons,
      List.mem_append, List.mem_map, List.mem_singleton, List.not_mem_nil, or_false] at hs
    rcases hs with hs | ⟨j, _, hs⟩ | hs <;> subst hs <;> simp
  · simp [QPainterPath.startPoint, Element.target, List.head?_eq_getElem?, h0]
  · simp [splinePath, QPainterPath.currentPosition, Element.target,
      List.getLast?_eq_getElem?, hl]

/-- Witness of claim C2: three waypoints. -/
theorem drawSplines_segment_count_witness :
    3 ≤ ([⟨0, 0⟩, ⟨3, 4⟩, ⟨6, 8⟩] : List (QPointF ℚ)).length
      ∧ ∃ (first : QPointF ℚ) (segments : List (Element ℚ)),
        drawSplines ratSqrt exampleBound [⟨0, 0⟩, ⟨3, 4⟩, ⟨6, 8⟩] (1 / 2)
            = some (exampleBound.setPath (Element.moveTo first :: segments))
          ∧ segments.length = ([⟨0, 0⟩, ⟨3, 4⟩, ⟨6, 8⟩] : List (QPointF ℚ)).length - 1
          ∧ (∀ s ∈ segments, ∀ p, s ≠ Element.moveTo p)
          ∧ QPainterPath.startPoint (Element.moveTo first :: segments)
              = ([⟨0, 0⟩, ⟨3, 4⟩, ⟨6, 8⟩] : List (QPointF ℚ)).head?
          ∧ QPainterPath.currentPosition (Element.moveTo first :: segments)
              = ([⟨0, 0⟩, ⟨3, 4⟩, ⟨6, 8⟩] : List (QPointF ℚ)).getLast? :=
  ⟨by decide, drawSplines_segment_count ratSqrt exampleBound
    [⟨0, 0⟩, ⟨3, 4⟩, ⟨6, 8⟩] (1 / 2) (by decide)⟩

/-- Claim C3, as the code behaves: `drawSplines` has no check of the number of
waypoints.  With 0, 1 or 2 waypoints it dereferences an iterator outside its list
(the waypoint iterator of an empty list, or the iterator of the empty list of
control points) before it reaches `setPath`: the run has no defined result and no
error is reported. -/
theorem drawSplines_short_list_out_of_range (sqrt : α → α) (w : World α) (t : α)
    (p q : QPointF α) :
    drawSplines sqrt w [] t = none
      ∧ drawSplines sqrt w [p] t = none
      ∧ drawSplines sqrt w [p, q] t = none := by
  refine ⟨?_, ?_, ?_⟩ <;>
    simp [drawSplines, drawSplinesPath, computeControlPoints]

/-- Claim C4: for `n ≥ 3` waypoints `w[0..n-1]`, with `(a i, b i)` the pair of control
points computed from `(w[i], w[i+1], w[i+2])`, `drawSplines` builds exactly
`moveTo(w[0])`, `quadTo(a 0, w[1])`, then `cubicTo(b (k-2), a (k-1), w[k])` for
`k = 2 .. n-2` in order, then `quadTo(b (n-3), w[n-1])`.  The `2 (n-2)` computed
control points are used once each, in the order of their computation, and no access
leaves its list: the run ends with the path set, and every waypoint named here is
an element of the list. -/
theorem drawSplines_builds_path (sqrt : α → α) (w : World α)
    (waypoints : List (QPointF α)) (t : α) (h : 3 ≤ waypoints.length) :
    drawSplines sqrt w waypoints t = some (w.setPath
        ([Element.moveTo (waypointAt waypoints 0),
          Element.quadTo (controlPair sqrt waypoints t 0).1 (waypointAt waypoints 1)]
        ++ (List.range' 2 (waypoints.length - 3)).map (fun k =>
            Element.cubicTo (controlPair sqrt waypoints t (k - 2)).2
              (controlPair sqrt waypoints t (k - 1)).1 (waypointAt waypoints k))
        ++ [Element.quadTo (controlPair sqrt waypoints t (waypoints.length - 3)).2
              (waypointAt waypoints (waypoints.length - 1))]))
      ∧ (∀ i, i < waypoints.length → waypoints[i]? = some (waypointAt waypoints i))
      ∧ computeControlPoints sqrt waypoints t = some (controlPointList sqrt waypoints t)
      ∧ (controlPointList sqrt waypoints t).length = 2 * (waypoints.length - 2)
      ∧ ∀ w1, drawSplines sqrt w waypoints t = some w1 →
          w1.link.path.controlPoints = controlPointList sqrt waypoints t := by
  have hp := drawSplinesPath_eq sqrt waypoints t h
  have hd : drawSplines sqrt w waypoints t = some (w.setPath (splinePath sqrt waypoints t)) := by
    simp only [drawSplines, hp, Option.map_some']
  refine ⟨?_, fun i hi => getElem?_eq_waypointAt waypoints i hi,
    computeControlPoints_eq sqrt waypoints t (by omega),
    controlPointList_length sqrt waypoints t, ?_⟩
  · rw [hd, splinePath, List.range'_eq_map_range, List.map_map]
    congr 4
    apply List.map_congr_left
    intro j _
    have e1 : j + 2 - 2 = j := by omega
    have e2 : j + 2 - 1 = j + 1 := by omega
    have e3 : 2 + j = j + 2 := by omega
    simp only [Function.comp_apply, e3, e1, e2]
  · intro w1 hw1
    rw [hd] at hw1
    cases hw1
    exact splinePath_controlPoints sqrt waypoints t h

/-- Witness of claim C4: four waypoints. -/
theorem drawSplines_builds_path_witness :
    3 ≤ ([⟨0, 0⟩, ⟨3, 4⟩, ⟨6, 8⟩, ⟨6, 16⟩] : List (QPointF ℚ)).length
      ∧ drawSplines ratSqrt exampleBound [⟨0, 0⟩, ⟨3, 4⟩, ⟨6, 8⟩, ⟨6, 16⟩] (1 / 2)
          = some (exampleBound.setPath
              [Element.moveTo ⟨0, 0⟩,
               Element.quadTo ⟨3 / 2, 2⟩ ⟨3, 4⟩,
               Element.cubicTo ⟨9 / 2, 6⟩ ⟨141 / 26, 74 / 13⟩ ⟨6, 8⟩,
               Element.quadTo ⟨90 / 13, 152 / 13⟩ ⟨6, 16⟩]) := by
  have h := drawSplines_builds_path ratSqrt exampleBound
    [⟨0, 0⟩, ⟨3, 4⟩, ⟨6, 8⟩, ⟨6, 16⟩] (1 / 2) (by decide)
  refine ⟨by decide, ?_⟩
  rw [h.1]
  have s25 : Nat.sqrt 25 = 5 := (Nat.eq_sqrt.2 (by decide)).symm
  have s64 : Nat.sqrt 64 = 8 := (Nat.eq_sqrt.2 (by decide)).symm
  have t25 : Int.toNat 25 = 25 := rfl
  have t64 : Int.toNat 64 = 64 := rfl
  simp only [controlPair, computeControlPoint, waypointAt, ratSqrt, List.range', List.length,
    List.map, List.getD_cons_zero, List.getD_cons_succ, List.cons_append, List.nil_append]
  norm_num [t25, t64, s25, s64]

/-! ## Control points -/

/-- Claim C5: let `sqrt` be non-negative and zero only at zero, and let `p0`, `p1`,
`p2` be three points that are not all equal.  With `d01 = |p1 - p0|` and
`d12 = |p2 - p1|` the Euclidean distances, `d01 + d12` is not zero and
`computeControlPoint` returns `ctrl1 = p1 - fa (p2 - p0)` and
`ctrl2 = p1 + fb (p2 - p0)` for `fa = t d01 / (d01 + d12)` and
`fb = t d12 / (d01 + d12)`. -/
theorem computeControlPoint_formula (sqrt : α → α) (hnn : ∀ v, 0 ≤ sqrt v)
    (hz : ∀ v, 0 ≤ v → sqrt v = 0 → v = 0) (p0 p1 p2 : QPointF α) (t : α)
    (hne : ¬ (p0 = p1 ∧ p1 = p2)) :
    (p1.sub p0).norm sqrt + (p2.sub p1).norm sqrt ≠ 0
      ∧ (computeControlPoint sqrt p0 p1 p2 t).1 =
          p1.sub (QPointF.scale
            (t * (p1.sub p0).norm sqrt / ((p1.sub p0).norm sqrt + (p2.sub p1).norm sqrt))
            (p2.sub p0))
      ∧ (computeControlPoint sqrt p0 p1 p2 t).2 =
          p1.add (QPointF.scale
            (t * (p2.sub p1).norm sqrt / ((p1.sub p0).norm sqrt + (p2.sub p1).norm sqrt))
            (p2.sub p0)) := by
  refine ⟨?_, ?_, ?_⟩
  rotate_left
  · simp only [computeControlPoint, QPointF.sub, QPointF.scale, QPointF.norm]
  · simp only [computeControlPoint, QPointF.sub, QPointF.add, QPointF.scale, QPointF.norm]
  intro hsum
  apply hne
  have h1 := hnn ((p1.sub p0).x ^ 2 + (p1.sub p0).y ^ 2)
  have h2 := hnn ((p2.sub p1).x ^ 2 + (p2.sub p1).y ^ 2)
  simp only [QPointF.norm] at hsum
  have e1 : sqrt ((p1.sub p0).x ^ 2 + (p1.sub p0).y ^ 2) = 0 := by linarith
  have e2 : sqrt ((p2.sub p1).x ^ 2 + (p2.sub p1).y ^ 2) = 0 := by linarith
  have z1 := hz _ (by positivity) e1
  have z2 := hz _ (by positivity) e2
  simp only [QPointF.sub] at z1 z2
  obtain ⟨a1, a2⟩ := sq_add_sq_eq_zero z1
  obtain ⟨a3, a4⟩ := sq_add_sq_eq_zero z2
  constructor
  · cases p0
    cases p1
    simp only [QPointF.mk.injEq] at *
    exact ⟨by linarith, by linarith⟩
  · cases p1
    cases p2
    simp only [QPointF.mk.injEq] at *
    exact ⟨by linarith, by linarith⟩

/-- Witness of claim C5: the real square root and the points `(0, 0)`, `(3, 4)`,
`(6, 8)` with tension `1 / 2`. -/
theorem computeControlPoint_formula_witness :
    (∀ v : ℝ, 0 ≤ Real.sqrt v)
      ∧ (∀ v : ℝ, 0 ≤ v → Real.sqrt v = 0 → v = 0)
      ∧ ¬ ((⟨0, 0⟩ : QPointF ℝ) = ⟨3, 4⟩ ∧ (⟨3, 4⟩ : QPointF ℝ) = ⟨6, 8⟩)
      ∧ (QPointF.sub (⟨3, 4⟩ : QPointF ℝ) ⟨0, 0⟩).norm Real.sqrt
          + (QPointF.sub (⟨6, 8⟩ : QPointF ℝ) ⟨3, 4⟩).norm Real.sqrt ≠ 0
      ∧ (computeControlPoint Real.sqrt ⟨0, 0⟩ ⟨3, 4⟩ ⟨6, 8⟩ (1 / 2)).1 =
          QPointF.sub ⟨3, 4⟩ (QPointF.scale
            (1 / 2 * (QPointF.sub (⟨3, 4⟩ : QPointF ℝ) ⟨0, 0⟩).norm Real.sqrt
              / ((QPointF.sub (⟨3, 4⟩ : QPointF ℝ) ⟨0, 0⟩).norm Real.sqrt
                + (QPointF.sub (⟨6, 8⟩ : QPointF ℝ) ⟨3, 4⟩).norm Real.sqrt))
            (QPointF.sub ⟨6, 8⟩ ⟨0, 0⟩))
      ∧ (computeControlPoint Real.sqrt ⟨0, 0⟩ ⟨3, 4⟩ ⟨6, 8⟩ (1 / 2)).2 =
          QPointF.add ⟨3, 4⟩ (QPointF.scale
            (1 / 2 * (QPointF.sub (⟨6, 8⟩ : QPointF ℝ) ⟨3, 4⟩).norm Real.sqrt
              / ((QPointF.sub (⟨3, 4⟩ : QPointF ℝ) ⟨0, 0⟩).norm Real.sqrt
                + (QPointF.sub (⟨6, 8⟩ : QPointF ℝ) ⟨3, 4⟩).norm Real.sqrt))
            (QPointF.sub ⟨6, 8⟩ ⟨0, 0⟩)) :=
  ⟨Real.sqrt_nonneg, fun _ hv h => (Real.sqrt_eq_zero hv).1 h, by simp,
    computeControlPoint_formula Real.sqrt Real.sqrt_nonneg
      (fun _ hv h => (Real.sqrt_eq_zero hv).1 h) ⟨0, 0⟩ ⟨3, 4⟩ ⟨6, 8⟩ (1 / 2) (by simp)⟩

/-! ## Dropping a link -/

/-- Claim C6: let the link have its `from` bound to `s` and be listed by `s`.  A
release at a point whose item is a sink `k` that accepts `s` binds the link: the
handler ends with `to = k`, it has called `k.connect(link)` and the link is in the
attached set of `k`, `from` is still `s` and `s` still lists the link, and the path
is `simpleCurve(s.position, k.position)`. -/
theorem mouseReleaseEvent_binds_accepting_sink (w : World α) (p : QPointF α) (s k : AttrId)
    (hfrom : w.link.from_ = some s) (hlisted : w.self ∈ (w.attributes s).links)
    (hitem : w.itemAt p = some (Item.attribute k))
    (hsink : (w.attributes k).direction = Direction.sink)
    (haccept : w.accept k (some s) = true) :
    ∃ w1, mouseReleaseEvent w p = some w1
      ∧ w1.link.to_ = some k
      ∧ w1.calls = w.calls ++ [Call.connect k w.self]
      ∧ w1.attributes k = (w.attributes k).connect w.self
      ∧ w1.self ∈ (w1.attributes k).links
      ∧ w1.link.from_ = some s
      ∧ w1.self ∈ (w1.attributes s).links
      ∧ w1.link.path =
          simpleCurve (w1.attributes s).connectorPos (w1.attributes k).connectorPos := by
  obtain ⟨w1, h1, hp, hf, ht, _, hself, ha, _, _, _, hc⟩ := connectTo_spec w s k hfrom
  have hk : w1.attributes k = (w.attributes k).connect w.self := by
    rw [ha, Function.update_same]
  have hs : w.self ∈ (w1.attributes s).links ∧
      (w1.attributes s).connectorPos = (w.attributes s).connectorPos := by
    by_cases hsk : s = k
    · subst hsk
      rw [hk]
      exact ⟨mem_connect_links _ _, connect_connectorPos _ _⟩
    · rw [ha, Function.update_noteq hsk]
      exact ⟨hlisted, rfl⟩
  refine ⟨w1, ?_, ht, hc, hk, ?_, hf, ?_, ?_⟩
  · simp only [mouseReleaseEvent, hitem, qgraphicsitem_cast_AttributeInput, hsink, if_true,
      hfrom, haccept]
    exact h1
  · rw [hself, hk]
    exact mem_connect_links _ _
  · rw [hself]
    exact hs.1
  · rw [hp, hs.2, hk, connect_connectorPos]

/-- Witness of claim C6: the pending link of the example scene released over sink
`1`. -/
theorem mouseReleaseEvent_binds_accepting_sink_witness :
    examplePending.link.from_ = some 0
      ∧ examplePending.self ∈ (examplePending.attributes 0).links
      ∧ examplePending.itemAt ⟨10, 4⟩ = some (Item.attribute 1)
      ∧ (examplePending.attributes 1).direction = Direction.sink
      ∧ examplePending.accept 1 (some 0) = true
      ∧ ∃ w1, mouseReleaseEvent examplePending ⟨10, 4⟩ = some w1
        ∧ w1.link.to_ = some 1
        ∧ w1.calls = examplePending.calls ++ [Call.connect 1 examplePending.self]
        ∧ w1.attributes 1 = (examplePending.attributes 1).connect examplePending.self
        ∧ w1.self ∈ (w1.attributes 1).links
        ∧ w1.link.from_ = some 0
        ∧ w1.self ∈ (w1.attributes 0).links
        ∧ w1.link.path =
            simpleCurve (w1.attributes 0).connectorPos (w1.attributes 1).connectorPos :=
  ⟨rfl, by decide, by decide, rfl, rfl,
    mouseReleaseEvent_binds_accepting_sink examplePending ⟨10, 4⟩ 0 1 rfl (by decide)
      (by decide) rfl rfl⟩

/-- Claim C7, as the code behaves: the example link bound from source `0` to sink `1`
is pressed at `(5, 5)` and released over sink `2`, which does not accept source `0`.
The release handler then takes neither branch: the link keeps `to = 1` but is
not put back into the attached set of sink `1`, and its path stays the dragged
curve to `(5, 5)` instead of the curve to sink `1`.  The only call made on an
attribute is the `disconnect` of the press. -/
theorem mouseReleaseEvent_rejecting_sink_does_not_restore :
    ∃ w1 w2, mousePressEvent exampleBound ⟨5, 5⟩ = some w1
      ∧ w1.itemAt ⟨10, 20⟩ = some (Item.attribute 2)
      ∧ (w1.attributes 2).direction = Direction.sink
      ∧ w1.accept 2 w1.link.from_ = false
      ∧ mouseReleaseEvent w1 ⟨10, 20⟩ = some w2
      ∧ w2.link.to_ = some 1
      ∧ w2.self ∉ (w2.attributes 1).links
      ∧ w2.link.path = simpleCurve ⟨0, 0⟩ ⟨5, 5⟩
      ∧ w2.link.path ≠
          simpleCurve (w2.attributes 0).connectorPos (w2.attributes 1).connectorPos
      ∧ w2.calls = [Call.disconnect 1 7] := by
  obtain ⟨w1, h1, hp, hf, ht, _, hself, ha, hi, hacc, _, hc⟩ :=
    mousePressEvent_spec exampleBound 0 1 ⟨5, 5⟩ rfl rfl
  have hitem : w1.itemAt ⟨10, 20⟩ = some (Item.attribute 2) := by
    rw [hi]; decide
  have hsink : (w1.attributes 2).direction = Direction.sink := by
    rw [ha]; decide
  have hrej : w1.accept 2 w1.link.from_ = false := by
    rw [hacc, hf]; decide
  refine ⟨w1, w1, h1, hitem, hsink, hrej,
    release_over_rejecting_sink_unchanged w1 ⟨10, 20⟩ 2 hitem hsink hrej, ht, ?_, ?_, ?_, ?_⟩
  · rw [hself, ha, Function.update_same]
    exact not_mem_disconnect_links _ _
  · rw [hp]; rfl
  · rw [hp, ha]
    simp [simpleCurve, exampleBound, exampleAttributes, Attribute.disconnect]
  · rw [hc]; rfl

/-- Claim C8: let the link be bound from `s` to `k`, listed by both, with its path the
curve between their positions, and let no item be under `q`.  A press at `p`, any
number of moves and a release at `q` end with `from = s`, `to = k`, the link in
the attached sets of `s` and of `k`, and the path equal to the path before the
press. -/
theorem drag_to_empty_space_restores (w : World α) (s k : AttrId) (p q : QPointF α)
    (moves : List (QPointF α))
    (hfrom : w.link.from_ = some s) (hto : w.link.to_ = some k)
    (hs : w.self ∈ (w.attributes s).links) (hk : w.self ∈ (w.attributes k).links)
    (hpath : w.link.path =
      simpleCurve (w.attributes s).connectorPos (w.attributes k).connectorPos)
    (hempty : w.itemAt q = none) :
    ∃ w3, drag w p moves q = some w3
      ∧ w3.link.from_ = some s ∧ w3.link.to_ = some k
      ∧ w3.self = w.self
      ∧ w3.self ∈ (w3.attributes s).links ∧ w3.self ∈ (w3.attributes k).links
      ∧ w3.link.path = w.link.path := by
  obtain ⟨w1, h1, _, hf1, ht1, _, hself1, ha1, hi1, _, _, _⟩ :=
    mousePressEvent_spec w s k p hfrom hto
  obtain ⟨w2, h2, _, hf2, ht2, _, hself2, ha2, hi2, _, _, _⟩ :=
    mouseMoveEvents_spec moves w1 s hf1
  obtain ⟨w3, h3, hp3, hf3, ht3, _, hself3, ha3, _, _, _, _⟩ :=
    connectTo_spec w2 s k (hf2.trans hf1)
  have hitem : w2.itemAt q = none := by rw [hi2, hi1, hempty]
  have hrel : mouseReleaseEvent w2 q = some w3 := by
    simp only [mouseReleaseEvent, hitem, qgraphicsitem_cast_AttributeInput, ht2, ht1]
    exact h3
  have hselfw : w3.self = w.self := hself3.trans (hself2.trans hself1)
  have hattr : w2.attributes =
      Function.update w.attributes k ((w.attributes k).disconnect w.self) := ha2.trans ha1
  have hkk : w3.attributes k = (w2.attributes k).connect w2.self := by
    rw [ha3, Function.update_same]
  refine ⟨w3, ?_, hf3, ht3, hselfw, ?_, ?_, ?_⟩
  · simp only [drag, h1, h2, hrel, Option.bind_eq_bind, Option.some_bind]
  · by_cases hsk : s = k
    · subst hsk
      rw [hkk, hself3]
      exact mem_connect_links _ _
    · rw [ha3, Function.update_noteq hsk, hattr, Function.update_noteq hsk, hselfw]
      exact hs
  · rw [hkk, hself3]
    exact mem_connect_links _ _
  · rw [hp3, hpath, hattr]
    by_cases hsk : s = k
    · subst hsk
      simp only [Function.update_same, disconnect_connectorPos]
    · simp only [Function.update_same, Function.update_noteq hsk, disconnect_connectorPos]

/-- Witness of claim C8: the bound link of the example scene, pressed at `(5, 5)`,
moved twice and released at `(7, 7)`, where the scene has no item. -/
theorem drag_to_empty_space_restores_witness :
    exampleBound.link.from_ = some 0 ∧ exampleBound.link.to_ = some 1
      ∧ exampleBound.self ∈ (exampleBound.attributes 0).links
      ∧ exampleBound.self ∈ (exampleBound.attributes 1).links
      ∧ exampleBound.link.path =
          simpleCurve (exampleBound.attributes 0).connectorPos
            (exampleBound.attributes 1).connectorPos
      ∧ exampleBound.itemAt ⟨7, 7⟩ = none
      ∧ ∃ w3, drag exampleBound ⟨5, 5⟩ [⟨6, 5⟩, ⟨7, 6⟩] ⟨7, 7⟩ = some w3
        ∧ w3.link.from_ = some 0 ∧ w3.link.to_ = some 1
        ∧ w3.self = exampleBound.self
        ∧ w3.self ∈ (w3.attributes 0).links ∧ w3.self ∈ (w3.attributes 1).links
        ∧ w3.link.path = exampleBound.link.path :=
  ⟨rfl, rfl, by decide, by decide, rfl, by decide,
    drag_to_empty_space_restores exampleBound 0 1 ⟨5, 5⟩ ⟨7, 7⟩ [⟨6, 5⟩, ⟨7, 6⟩]
      rfl rfl (by decide) (by decide) rfl (by decide)⟩

/-! ## Teardown -/

/-- Claim C9: `Link::disconnect` calls `disconnect(link)` on `from` exactly when
`from` is bound and then on `to` exactly when `to` is bound, and makes no other
call; it leaves the fields of the link as they were.  Run a second time it
changes nothing more: the attached set of every attribute and the fields of the
link are the same after two runs as after one.  The effect of one run on the
attributes is that of these calls: the attribute of every bound end is replaced
by the result of `disconnect(link)` on it, so the link is erased from its
attached set, and every other attribute is as it was. -/
theorem disconnect_calls_and_idempotent {β : Type} (w : World β) :
    (disconnect w).calls =
        w.calls
          ++ (match w.link.from_ with
              | some f => [Call.disconnect f w.self]
              | none => [])
          ++ (match w.link.to_ with
              | some t => [Call.disconnect t w.self]
              | none => [])
      ∧ (disconnect w).link = w.link
      ∧ (disconnect w).self = w.self
      ∧ (∀ a, ((disconnect (disconnect w)).attributes a).links
            = ((disconnect w).attributes a).links)
      ∧ (disconnect (disconnect w)).attributes = (disconnect w).attributes
      ∧ (disconnect (disconnect w)).link = (disconnect w).link
      ∧ (∀ a, (disconnect w).attributes a =
          if some a = w.link.from_ ∨ some a = w.link.to_
          then (w.attributes a).disconnect w.self else w.attributes a)
      ∧ (∀ a, ((disconnect w).attributes a).links =
          if some a = w.link.from_ ∨ some a = w.link.to_
          then (w.attributes a).links.erase w.self else (w.attributes a).links)
      ∧ (∀ f, w.link.from_ = some f → w.self ∉ ((disconnect w).attributes f).links)
      ∧ (∀ t, w.link.to_ = some t → w.self ∉ ((disconnect w).attributes t).links) := by
  have hlink := disconnect_link w
  have hself := disconnect_self w
  have hattr : (disconnect (disconnect w)).attributes = (disconnect w).attributes := by
    funext a
    rw [disconnect_attributes (disconnect w), disconnect_attributes w, hlink, hself]
    by_cases h : some a = w.link.from_ ∨ some a = w.link.to_
    · simp only [h, if_true, disconnect_disconnect]
    · simp only [h, if_false]
  have hlinks : ∀ a, ((disconnect w).attributes a).links =
      if some a = w.link.from_ ∨ some a = w.link.to_
      then (w.attributes a).links.erase w.self else (w.attributes a).links := by
    intro a
    rw [disconnect_attributes w a]
    by_cases h : some a = w.link.from_ ∨ some a = w.link.to_
    · simp only [h, if_true, Attribute.disconnect]
    · simp only [h, if_false]
  refine ⟨?_, hlink, hself, ?_, hattr, ?_, disconnect_attributes w, hlinks, ?_, ?_⟩
  · rcases hf : w.link.from_ with _ | f <;> rcases ht : w.link.to_ with _ | t <;>
      simp [disconnect, World.attrDisconnect, hf, ht]
  · intro a
    rw [hattr]
  · rw [disconnect_link, disconnect_link]
  · intro f hf
    rw [hlinks f, if_pos (Or.inl hf.symm)]
    exact Finset.not_mem_erase _ _
  · intro t ht
    rw [hlinks t, if_pos (Or.inr ht.symm)]
    exact Finset.not_mem_erase _ _

/-! ## Picking a link up -/

/-- Claim C10, counterexample: the example link is bound from source `0` to sink `1`;
after a press at `(5, 5)` its `to` field is still sink `1`. -/
theorem mousePressEvent_keeps_to_example :
    exampleBound.link.from_ = some 0 ∧ exampleBound.link.to_ = some 1
      ∧ (exampleBound.attributes 0).direction = Direction.source
      ∧ (exampleBound.attributes 1).direction = Direction.sink
      ∧ exampleBound.self ∈ (exampleBound.attributes 0).links
      ∧ exampleBound.self ∈ (exampleBound.attributes 1).links
      ∧ ∃ w1, mousePressEvent exampleBound ⟨5, 5⟩ = some w1 ∧ w1.link.to_ = some 1 := by
  obtain ⟨w1, h1, _, _, ht, _⟩ := mousePressEvent_spec exampleBound 0 1 ⟨5, 5⟩ rfl rfl
  exact ⟨rfl, rfl, rfl, rfl, by decide, by decide, w1, h1, ht⟩

/-- Claim C10, amended: a press at `p` on a link bound from a source `s` to a sink `k`
calls `k.disconnect(link)`, so the link is no longer in the attached set of `k`,
while the field `to` still holds `k`; the link is still bound to and listed by
`s`, it is selected, and its path is `simpleCurve(s.position, p)`. -/
theorem mousePressEvent_detaches_keeps_to (w : World α) (s k : AttrId) (p : QPointF α)
    (hfrom : w.link.from_ = some s) (hto : w.link.to_ = some k)
    (hsource : (w.attributes s).direction = Direction.source)
    (hsink : (w.attributes k).direction = Direction.sink)
    (hs : w.self ∈ (w.attributes s).links) :
    ∃ w1, mousePressEvent w p = some w1
      ∧ w1.calls = w.calls ++ [Call.disconnect k w.self]
      ∧ w1.self ∉ (w1.attributes k).links
      ∧ w1.link.to_ = some k
      ∧ w1.link.from_ = some s
      ∧ w1.self ∈ (w1.attributes s).links
      ∧ w1.link.selected = true
      ∧ w1.link.path = simpleCurve (w1.attributes s).connectorPos p := by
  obtain ⟨w1, h1, hp, hf, ht, hsel, hself, ha, _, _, _, hc⟩ :=
    mousePressEvent_spec w s k p hfrom hto
  have hsk : s ≠ k := by
    intro h
    rw [h, hsink] at hsource
    cases hsource
  refine ⟨w1, h1, hc, ?_, ht, hf, ?_, hsel, ?_⟩
  · rw [hself, ha, Function.update_same]
    exact not_mem_disconnect_links _ _
  · rw [hself, ha, Function.update_noteq hsk]
    exact hs
  · rw [hp, ha, Function.update_noteq hsk]

/-- Witness of claim C10 as amended: the bound link of the example scene pressed at
`(5, 5)`. -/
theorem mousePressEvent_detaches_keeps_to_witness :
    exampleBound.link.from_ = some 0 ∧ exampleBound.link.to_ = some 1
      ∧ (exampleBound.attributes 0).direction = Direction.source
      ∧ (exampleBound.attributes 1).direction = Direction.sink
      ∧ exampleBound.self ∈ (exampleBound.attributes 0).links
      ∧ ∃ w1, mousePressEvent exampleBound ⟨5, 5⟩ = some w1
        ∧ w1.calls = exampleBound.calls ++ [Call.disconnect 1 exampleBound.self]
        ∧ w1.self ∉ (w1.attributes 1).links
        ∧ w1.link.to_ = some 1
        ∧ w1.link.from_ = some 0
        ∧ w1.self ∈ (w1.attributes 0).links
        ∧ w1.link.selected = true
        ∧ w1.link.path = simpleCurve (w1.attributes 0).connectorPos ⟨5, 5⟩ :=
  ⟨rfl, rfl, rfl, rfl, by decide,
    mousePressEvent_detaches_keeps_to exampleBound 0 1 ⟨5, 5⟩ rfl rfl rfl rfl (by decide)⟩

/-! ## Dropping a pending link -/

/-- Claim C12: let the link be pending (`from` bound to `s`, `to` null) and not
listed by the sink `k2`.  A release at a point whose item is `k2`, when `k2` does
not accept `s`, returns normally and changes nothing: the attached set of `k2` is
the same and does not contain the link, no call is made on an attribute, `to` is
still null and `from` is still `s`. -/
theorem mouseReleaseEvent_pending_rejecting_sink (w : World α) (p : QPointF α)
    (s k2 : AttrId)
    (hfrom : w.link.from_ = some s) (hto : w.link.to_ = none)
    (hitem : w.itemAt p = some (Item.attribute k2))
    (hsink : (w.attributes k2).direction = Direction.sink)
    (hreject : w.accept k2 (some s) = false)
    (habsent : w.self ∉ (w.attributes k2).links) :
    ∃ w1, mouseReleaseEvent w p = some w1
      ∧ (w1.attributes k2).links = (w.attributes k2).links
      ∧ w1.self ∉ (w1.attributes k2).links
      ∧ w1.calls = w.calls
      ∧ w1.link.to_ = none
      ∧ w1.link.from_ = some s := by
  have hrej : w.accept k2 w.link.from_ = false := by rw [hfrom]; exact hreject
  exact ⟨w, release_over_rejecting_sink_unchanged w p k2 hitem hsink hrej, rfl, habsent, rfl,
    hto, hfrom⟩

/-- Witness of claim C12: the pending link of the example scene released over sink
`2`, which does not accept source `0`. -/
theorem mouseReleaseEvent_pending_rejecting_sink_witness :
    examplePending.link.from_ = some 0 ∧ examplePending.link.to_ = none
      ∧ examplePending.itemAt ⟨10, 20⟩ = some (Item.attribute 2)
      ∧ (examplePending.attributes 2).direction = Direction.sink
      ∧ examplePending.accept 2 (some 0) = false
      ∧ examplePending.self ∉ (examplePending.attributes 2).links
      ∧ ∃ w1, mouseReleaseEvent examplePending ⟨10, 20⟩ = some w1
        ∧ (w1.attributes 2).links = (examplePending.attributes 2).links
        ∧ w1.self ∉ (w1.attributes 2).links
        ∧ w1.calls = examplePending.calls
        ∧ w1.link.to_ = none
        ∧ w1.link.from_ = some 0 :=
  ⟨rfl, rfl, by decide, by decide, rfl, by decide,
    mouseReleaseEvent_pending_rejecting_sink examplePending ⟨10, 20⟩ 0 2 rfl rfl (by decide)
      (by decide) rfl (by decide)⟩

/-! ## Painting -/

/-- Claim C13: let the link have `from` bound to `s` and `to` bound to `k`.  Whatever
path is stored, `paint` ends with the path `simpleCurve(s.position, k.position)`
for the positions the two attributes have when `paint` runs; it changes no
attribute and neither end of the link. -/
theorem paint_recomputes_bound_path (w : World α) (s k : AttrId) (stale : QPainterPath α)
    (hfrom : w.link.from_ = some s) (hto : w.link.to_ = some k) :
    ∃ w1, paint (w.setPath stale) = some w1
      ∧ w1.link.path =
          simpleCurve (w.attributes s).connectorPos (w.attributes k).connectorPos
      ∧ w1.attributes = w.attributes
      ∧ w1.link.from_ = some s ∧ w1.link.to_ = some k := by
  obtain ⟨w1, h1, hp, hf, ht, _, _, ha, _⟩ := paint_spec (w.setPath stale) s k hfrom hto
  exact ⟨w1, h1, hp, ha, hf, ht⟩

/-- Witness of claim C13: the bound link of the example scene with an empty stored
path. -/
theorem paint_recomputes_bound_path_witness :
    exampleBound.link.from_ = some 0 ∧ exampleBound.link.to_ = some 1
      ∧ ∃ w1, paint (exampleBound.setPath []) = some w1
        ∧ w1.link.path =
            simpleCurve (exampleBound.attributes 0).connectorPos
              (exampleBound.attributes 1).connectorPos
        ∧ w1.attributes = exampleBound.attributes
        ∧ w1.link.from_ = some 0 ∧ w1.link.to_ = some 1 :=
  ⟨rfl, rfl, paint_recomputes_bound_path exampleBound 0 1 [] rfl rfl⟩

/-- Claim C15, as the code behaves: the example link, bound from source `0` at
`(0, 0)` to sink `1` at `(10, 4)`, is pressed at `(5, 5)`, which snaps the end of
the path to `(5, 5)`, and then painted.  The press has not cleared `to`, so `paint`
recomputes the path as for a bound link: after `paint` the path is the curve to
sink `1`, not the curve to `(5, 5)`. -/
theorem paint_while_dragged_example :
    ∃ w1 w2, mousePressEvent exampleBound ⟨5, 5⟩ = some w1
      ∧ w1.link.path = simpleCurve ⟨0, 0⟩ ⟨5, 5⟩
      ∧ paint w1 = some w2
      ∧ w2.link.path = simpleCurve ⟨0, 0⟩ ⟨10, 4⟩
      ∧ w2.link.path ≠ simpleCurve (w2.attributes 0).connectorPos ⟨5, 5⟩ := by
  obtain ⟨w1, h1, hp, hf, ht, _, _, ha, _⟩ :=
    mousePressEvent_spec exampleBound 0 1 ⟨5, 5⟩ rfl rfl
  obtain ⟨w2, h2, hp2, _, _, _, _, ha2, _⟩ := paint_spec w1 0 1 hf ht
  have hpath : w2.link.path = simpleCurve ⟨0, 0⟩ ⟨10, 4⟩ := by
    rw [hp2, ha]
    rfl
  refine ⟨w1, w2, h1, ?_, h2, hpath, ?_⟩
  · rw [hp]; rfl
  · rw [hpath, ha2, ha]
    simp [simpleCurve, exampleBound, exampleAttributes, Attribute.disconnect]

/-- The same run for every link bound from `s` to `k`: after a press at `p` and any
number of moves the path is the curve from `s` to the last pointer position, and
`to` still holds `k`; a call to `paint` then sets the path to
`simpleCurve(s.position, k.position)`, the curve to the sink the link was bound
to. -/
theorem paint_while_dragged_redraws_to_sink (w : World α) (s k : AttrId) (p : QPointF α)
    (moves : List (QPointF α))
    (hfrom : w.link.from_ = some s) (hto : w.link.to_ = some k) :
    ∃ w1 w2 w3, mousePressEvent w p = some w1
      ∧ moves.foldlM mouseMoveEvent w1 = some w2
      ∧ w2.link.path = simpleCurve (w.attributes s).connectorPos (moves.getLast?.getD p)
      ∧ w2.link.to_ = some k
      ∧ paint w2 = some w3
      ∧ w3.link.path =
          simpleCurve (w.attributes s).connectorPos (w.attributes k).connectorPos := by
  obtain ⟨w1, h1, hp1, hf1, ht1, _, _, ha1, _⟩ := mousePressEvent_spec w s k p hfrom hto
  obtain ⟨w2, h2, hp2, hf2, ht2, _, _, ha2, _⟩ := mouseMoveEvents_spec moves w1 s hf1
  obtain ⟨w3, h3, hp3, _⟩ := paint_spec w2 s k (hf2.trans hf1) (ht2.trans ht1)
  have hpos : ∀ a, (w2.attributes a).connectorPos = (w.attributes a).connectorPos := by
    intro a
    rw [ha2, ha1]
    by_cases hak : a = k
    · subst hak
      rw [Function.update_same, disconnect_connectorPos]
    · rw [Function.update_noteq hak]
  refine ⟨w1, w2, w3, h1, h2, ?_, ht2.trans ht1, h3, ?_⟩
  · rw [hp2]
    cases hlast : moves.getLast? with
    | none => simp only [Option.getD_none]; exact hp1
    | some e => simp only [Option.getD_some, ← ha2, hpos]
  · rw [hp3, hpos, hpos]

/-- An instance of the run above: the bound link of the example scene pressed at
`(5, 5)`, moved to `(6, 5)` and painted. -/
theorem paint_while_dragged_redraws_to_sink_witness :
    exampleBound.link.from_ = some 0 ∧ exampleBound.link.to_ = some 1
      ∧ ∃ w1 w2 w3, mousePressEvent exampleBound ⟨5, 5⟩ = some w1
        ∧ [(⟨6, 5⟩ : QPointF ℚ)].foldlM mouseMoveEvent w1 = some w2
        ∧ w2.link.path = simpleCurve (exampleBound.attributes 0).connectorPos
            ([(⟨6, 5⟩ : QPointF ℚ)].getLast?.getD ⟨5, 5⟩)
        ∧ w2.link.to_ = some 1
        ∧ paint w2 = some w3
        ∧ w3.link.path =
            simpleCurve (exampleBound.attributes 0).connectorPos
              (exampleBound.attributes 1).connectorPos :=
  ⟨rfl, rfl, paint_while_dragged_redraws_to_sink exampleBound 0 1 ⟨5, 5⟩ [⟨6, 5⟩] rfl rfl⟩

/-! ## Connection test -/

/-- Claim C16: `isConnected` returns `false` exactly when `from` and `to` are both
null and `true` otherwise, so it returns `true` for a link with only `from` bound;
`Link::disconnect` does not change its result. -/
theorem isConnected_false_iff_both_null {β : Type} (w : World β) :
    (isConnected w = false ↔ w.link.from_ = none ∧ w.link.to_ = none)
      ∧ (isConnected w = true ↔ ¬ (w.link.from_ = none ∧ w.link.to_ = none))
      ∧ (∀ s, w.link.from_ = some s → w.link.to_ = none → isConnected w = true)
      ∧ isConnected (disconnect w) = isConnected w := by
  refine ⟨?_, ?_, ?_, ?_⟩
  · by_cases h : w.link.from_ = none ∧ w.link.to_ = none <;> simp [isConnected, h]
  · by_cases h : w.link.from_ = none ∧ w.link.to_ = none <;> simp [isConnected, h]
  · intro s hs _
    simp [isConnected, hs]
  · simp only [isConnected, disconnect_link]

/-- Witness of claim C16: the pending link of the example scene counts as connected,
before and after `disconnect`. -/
theorem isConnected_false_iff_both_null_witness :
    examplePending.link.from_ = some 0 ∧ examplePending.link.to_ = none
      ∧ isConnected examplePending = true
      ∧ isConnected (disconnect examplePending) = true :=
  ⟨rfl, rfl, (isConnected_false_iff_both_null examplePending).2.2.1 0 rfl rfl,
    (isConnected_false_iff_both_null examplePending).2.2.2.trans
      ((isConnected_false_iff_both_null examplePending).2.2.1 0 rfl rfl)⟩

/-! ## Scaling factors -/

/-- Claim C14, counterexample.  First, in the `double` arithmetic of the code: for the
points `(0, 0)`, `(1, 0)`, `(3, 0)`, whose distances are `d01 = 1` and `d12 = 2`, and
tension `1`, the factor `fb` is `6004799503160661 / 2 ^ 53` while `t - fa` is
`6004799503160662 / 2 ^ 53`: they differ in the last bit.  Second, for the real
square root and tension `1`: for `(0, 0)`, `(0, 0)`, `(1, 0)` the first control point
is the middle point itself, not a point on one side of it, and for `(0, 0)`,
`(1, 0)`, `(0, 0)` both control points are the middle point. -/
theorem computeControlPoint_identity_example :
    scalingFactorB64 1 2 1 = 6004799503160661 / 2 ^ 53
      ∧ roundDouble (1 - scalingFactorA64 1 2 1) = 6004799503160662 / 2 ^ 53
      ∧ scalingFactorB64 1 2 1 ≠ roundDouble (1 - scalingFactorA64 1 2 1)
      ∧ ¬ ((⟨0, 0⟩ : QPointF ℝ) = ⟨0, 0⟩ ∧ (⟨0, 0⟩ : QPointF ℝ) = ⟨1, 0⟩)
      ∧ ¬ ((⟨0, 0⟩ : QPointF ℝ) = ⟨1, 0⟩ ∧ (⟨1, 0⟩ : QPointF ℝ) = ⟨0, 0⟩)
      ∧ (0 : ℝ) < 1
      ∧ (computeControlPoint Real.sqrt ⟨0, 0⟩ ⟨0, 0⟩ ⟨1, 0⟩ 1).1 = ⟨0, 0⟩
      ∧ (computeControlPoint Real.sqrt ⟨0, 0⟩ ⟨1, 0⟩ ⟨0, 0⟩ 1).1 = ⟨1, 0⟩
      ∧ (computeControlPoint Real.sqrt ⟨0, 0⟩ ⟨1, 0⟩ ⟨0, 0⟩ 1).2 = ⟨1, 0⟩ := by
  refine ⟨by decide!, by decide!, by decide!, by simp, by simp, by norm_num, ?_, ?_, ?_⟩ <;>
    simp [computeControlPoint]

/-- Claim C14, amended: read `double` as exact real numbers, let `sqrt` be
non-negative and zero only at zero, and let `p0`, `p1`, `p2` be not all equal.  The
factors of `computeControlPoint` satisfy `fb = t - fa`; the control points are
`ctrl1 = p1 - fa (p2 - p0)` and `ctrl2 = p1 + fb (p2 - p0)`, so
`ctrl2 - ctrl1 = t (p2 - p0)` and both lie on the line through `p1` along the
chord.  For `t > 0` the factors are non-negative, so the two points are never on
the same side of `p1`; the factors are positive if moreover `p0 ≠ p1` and
`p1 ≠ p2`.  When `p0 = p2` both control points are `p1`; when `sqrt 0 = 0`, the
first control point is `p1` if `p0 = p1` and the second is `p1` if `p1 = p2`. -/
theorem computeControlPoint_factors (sqrt : α → α) (hnn : ∀ v, 0 ≤ sqrt v)
    (hz : ∀ v, 0 ≤ v → sqrt v = 0 → v = 0) (p0 p1 p2 : QPointF α) (t : α)
    (hne : ¬ (p0 = p1 ∧ p1 = p2)) :
    scalingFactorB sqrt p0 p1 p2 t = t - scalingFactorA sqrt p0 p1 p2 t
      ∧ (computeControlPoint sqrt p0 p1 p2 t).1 =
          p1.sub (QPointF.scale (scalingFactorA sqrt p0 p1 p2 t) (p2.sub p0))
      ∧ (computeControlPoint sqrt p0 p1 p2 t).2 =
          p1.add (QPointF.scale (scalingFactorB sqrt p0 p1 p2 t) (p2.sub p0))
      ∧ (computeControlPoint sqrt p0 p1 p2 t).2.sub (computeControlPoint sqrt p0 p1 p2 t).1 =
          QPointF.scale t (p2.sub p0)
      ∧ (0 < t → 0 ≤ scalingFactorA sqrt p0 p1 p2 t ∧ 0 ≤ scalingFactorB sqrt p0 p1 p2 t)
      ∧ (0 < t → p0 ≠ p1 → p1 ≠ p2 →
          0 < scalingFactorA sqrt p0 p1 p2 t ∧ 0 < scalingFactorB sqrt p0 p1 p2 t)
      ∧ (p0 = p2 → (computeControlPoint sqrt p0 p1 p2 t).1 = p1
          ∧ (computeControlPoint sqrt p0 p1 p2 t).2 = p1)
      ∧ (sqrt 0 = 0 → p0 = p1 → (computeControlPoint sqrt p0 p1 p2 t).1 = p1)
      ∧ (sqrt 0 = 0 → p1 = p2 → (computeControlPoint sqrt p0 p1 p2 t).2 = p1) := by
  have hsum := norm_sum_ne_zero sqrt hnn hz p0 p1 p2 hne
  simp only [QPointF.norm, QPointF.sub] at hsum
  have h1 := hnn ((p1.x - p0.x) ^ 2 + (p1.y - p0.y) ^ 2)
  have h2 := hnn ((p2.x - p1.x) ^ 2 + (p2.y - p1.y) ^ 2)
  have hpos : 0 < sqrt ((p1.x - p0.x) ^ 2 + (p1.y - p0.y) ^ 2)
      + sqrt ((p2.x - p1.x) ^ 2 + (p2.y - p1.y) ^ 2) :=
    lt_of_le_of_ne (by linarith) (Ne.symm hsum)
  have hfb : scalingFactorB sqrt p0 p1 p2 t = t - scalingFactorA sqrt p0 p1 p2 t := by
    simp only [scalingFactorA, scalingFactorB]
    field_simp
    ring
  refine ⟨hfb, ?_, ?_, ?_, ?_, ?_, ?_, ?_, ?_⟩
  rotate_left 5
  · intro h02
    subst h02
    constructor <;> simp [computeControlPoint]
  · intro h0 h01
    subst h01
    simp [computeControlPoint, h0]
  · intro h0 h12
    subst h12
    simp [computeControlPoint, h0]
  · simp only [computeControlPoint, scalingFactorA, QPointF.sub, QPointF.scale]
  · simp only [computeControlPoint, scalingFactorB, QPointF.sub, QPointF.add, QPointF.scale]
  · have e : ∀ a b c d : α, b = t - a → c + b * d - (c - a * d) = t * d := by
      intro a b c d h
      rw [h]
      ring
    simp only [computeControlPoint, QPointF.sub, QPointF.scale, QPointF.mk.injEq]
    exact ⟨e _ _ _ _ hfb, e _ _ _ _ hfb⟩
  · intro ht
    simp only [scalingFactorA, scalingFactorB]
    exact ⟨div_nonneg (mul_nonneg ht.le h1) hpos.le, div_nonneg (mul_nonneg ht.le h2) hpos.le⟩
  · intro ht h01 h12
    have d1 : sqrt ((p1.x - p0.x) ^ 2 + (p1.y - p0.y) ^ 2) ≠ 0 := fun h =>
      h01 (norm_sub_eq_zero sqrt hz p1 p0 h)
    have d2 : sqrt ((p2.x - p1.x) ^ 2 + (p2.y - p1.y) ^ 2) ≠ 0 := fun h =>
      h12 (norm_sub_eq_zero sqrt hz p2 p1 h)
    simp only [scalingFactorA, scalingFactorB]
    exact ⟨div_pos (mul_pos ht (lt_of_le_of_ne h1 (Ne.symm d1))) hpos,
      div_pos (mul_pos ht (lt_of_le_of_ne h2 (Ne.symm d2))) hpos⟩

/-- Witness of claim C14 as amended: the real square root and the points `(0, 0)`,
`(3, 4)`, `(6, 8)` with tension `1 / 2`. -/
theorem computeControlPoint_factors_witness :
    (∀ v : ℝ, 0 ≤ Real.sqrt v)
      ∧ (∀ v : ℝ, 0 ≤ v → Real.sqrt v = 0 → v = 0)
      ∧ ¬ ((⟨0, 0⟩ : QPointF ℝ) = ⟨3, 4⟩ ∧ (⟨3, 4⟩ : QPointF ℝ) = ⟨6, 8⟩)
      ∧ scalingFactorB Real.sqrt ⟨0, 0⟩ ⟨3, 4⟩ ⟨6, 8⟩ (1 / 2)
          = 1 / 2 - scalingFactorA Real.sqrt ⟨0, 0⟩ ⟨3, 4⟩ ⟨6, 8⟩ (1 / 2)
      ∧ (computeControlPoint Real.sqrt ⟨0, 0⟩ ⟨3, 4⟩ ⟨6, 8⟩ (1 / 2)).2.sub
            (computeControlPoint Real.sqrt ⟨0, 0⟩ ⟨3, 4⟩ ⟨6, 8⟩ (1 / 2)).1
          = QPointF.scale (1 / 2) (QPointF.sub ⟨6, 8⟩ ⟨0, 0⟩)
      ∧ 0 < scalingFactorA Real.sqrt ⟨0, 0⟩ ⟨3, 4⟩ ⟨6, 8⟩ (1 / 2)
      ∧ 0 < scalingFactorB Real.sqrt ⟨0, 0⟩ ⟨3, 4⟩ ⟨6, 8⟩ (1 / 2) :=
  have h := computeControlPoint_factors Real.sqrt Real.sqrt_nonneg
    (fun _ hv h => (Real.sqrt_eq_zero hv).1 h) ⟨0, 0⟩ ⟨3, 4⟩ ⟨6, 8⟩ (1 / 2) (by simp)
  ⟨Real.sqrt_nonneg, fun _ hv h => (Real.sqrt_eq_zero hv).1 h, by simp, h.1, h.2.2.2.1,
    (h.2.2.2.2.2.1 (by norm_num) (by simp) (by simp)).1,
    (h.2.2.2.2.2.1 (by norm_num) (by simp) (by simp)).2⟩

/-! ## Node templates -/

theorem find_filter_other {ν : Type} (h : QHash ν) (key other : String) (hne : other ≠ key) :
    QHash.find (h.filter (fun e => e.1 != key)) other = QHash.find h other := by
  induction h with
  | nil => rfl
  | cons e rest ih =>
    obtain ⟨k, v⟩ := e
    simp only [QHash.find] at ih ⊢
    by_cases hk : k = key
    · subst hk
      have hb : (other == k) = false := by simpa using hne
      simp [List.filter_cons, List.lookup_cons, hb, ih]
    · have hk2 : (k != key) = true := by simpa using hk
      simp only [List.filter_cons, hk2, if_true, List.lookup_cons, ih]

theorem filter_of_find_none {ν : Type} (h : QHash ν) (key : String)
    (hnone : QHash.find h key = none) : h.filter (fun e => e.1 != key) = h := by
  induction h with
  | nil => rfl
  | cons e rest ih =>
    obtain ⟨k, v⟩ := e
    simp only [QHash.find, List.lookup_cons] at hnone ih
    by_cases hk : key = k
    · subst hk
      simp at hnone
    · have hb : (key == k) = false := by simpa using hk
      rw [hb] at hnone
      have hk2 : (k != key) = true := by simpa using (Ne.symm hk)
      simp only [List.filter_cons, hk2, if_true, ih hnone]

/-- Claim C17: `addItem` never overwrites a template.  When the type is already
registered the creator is left as it was.  Otherwise exactly one entry, the type
with the given attributes, is added in front of the entries there were.  In both
cases every other type keeps its entry. -/
theorem addItem_first_registration_wins {ι : Type} (c : NodeCreator ι) (type : String)
    (attributes : List ι) :
    (∀ old, c.available_items_.find type = some old → c.addItem type attributes = c)
      ∧ (c.available_items_.find type = none →
          (c.addItem type attributes).available_items_
              = (type, attributes) :: c.available_items_
            ∧ (c.addItem type attributes).available_items_.find type = some attributes
            ∧ (c.addItem type attributes).available_items_.length
                = c.available_items_.length + 1)
      ∧ (∀ other, other ≠ type →
          (c.addItem type attributes).available_items_.find other
            = c.available_items_.find other) := by
  refine ⟨?_, ?_, ?_⟩
  · intro old hold
    simp only [NodeCreator.addItem, hold]
  · intro hnone
    have hadd : (c.addItem type attributes).available_items_
        = (type, attributes) :: c.available_items_ := by
      simp only [NodeCreator.addItem, hnone, QHash.insert,
        filter_of_find_none c.available_items_ type hnone]
    rw [hadd]
    refine ⟨rfl, ?_, ?_⟩
    · simp [QHash.find, List.lookup_cons]
    · simp
  · intro other hother
    cases hfind : c.available_items_.find type with
    | some old => simp only [NodeCreator.addItem, hfind]
    | none =>
      have hb : (other == type) = false := by simpa using hother
      simp only [NodeCreator.addItem, hfind, QHash.insert]
      have h := find_filter_other c.available_items_ type other hother
      simp only [QHash.find, List.lookup_cons, hb] at h ⊢
      exact h

/-- Witness of claim C17: in the example creator a second registration of `Reader`
changes nothing, and a registration of `Writer` adds one entry and keeps the entry
of `Reader`. -/
theorem addItem_first_registration_wins_witness :
    exampleCreator.available_items_.find "Reader" = some ["in", "out"]
      ∧ exampleCreator.addItem "Reader" ["other"] = exampleCreator
      ∧ exampleCreator.available_items_.find "Writer" = none
      ∧ (exampleCreator.addItem "Writer" ["sink"]).available_items_
          = ("Writer", ["sink"]) :: exampleCreator.available_items_
      ∧ (exampleCreator.addItem "Writer" ["sink"]).available_items_.find "Reader"
          = exampleCreator.available_items_.find "Reader" :=
  ⟨by decide,
    (addItem_first_registration_wins exampleCreator "Reader" ["other"]).1 ["in", "out"]
      (by decide),
    by decide,
    ((addItem_first_registration_wins exampleCreator "Writer" ["sink"]).2.1 (by decide)).1,
    (addItem_first_registration_wins exampleCreator "Writer" ["sink"]).2.2 "Reader"
      (by decide)⟩

theorem foldl_addAttribute_record {ι : Type} (attributes : List ι) (node : Node ι α) :
    attributes.foldl (Node.ops ι α).addAttribute node
      = { node with attributes := node.attributes ++ attributes } := by
  induction attributes generalizing node with
  | nil => simp
  | cons a rest ih =>
    rw [List.foldl_cons, ih]
    simp [Node.ops]

/-- Claim C18: `createItem` returns a null pointer exactly when the type is not
registered.  For a registered type it returns the node constructed with the given
type, name and stage, moved to the given position, to which the attributes of the
template have been added one after the other in the order of the template; seen
as a record of these calls, the node has the given type, name, stage and
position and the attributes of the template.  The creator is never changed. -/
theorem createItem_null_iff_unregistered {η ι : Type} (ops : NodeOps η ι α)
    (c : NodeCreator ι) (type name stage : String) (pos : QPointF α) :
    ((c.createItem ops type name stage pos).1 = none ↔ c.available_items_.find type = none)
      ∧ (∀ attributes, c.available_items_.find type = some attributes →
          (c.createItem ops type name stage pos).1
            = some (attributes.foldl ops.addAttribute
                (ops.setPos (ops.construct type name stage) pos)))
      ∧ (∀ attributes, c.available_items_.find type = some attributes →
          (c.createItem (Node.ops ι α) type name stage pos).1
            = some ⟨type, name, stage, pos, attributes⟩)
      ∧ (c.createItem ops type name stage pos).2 = c := by
  refine ⟨?_, ?_, ?_, ?_⟩
  · cases h : c.available_items_.find type <;> simp [NodeCreator.createItem, h]
  · intro attributes h
    simp only [NodeCreator.createItem, h]
  · intro attributes h
    simp only [NodeCreator.createItem, h, foldl_addAttribute_record]
    simp [Node.ops]
  · cases h : c.available_items_.find type <;> simp [NodeCreator.createItem, h]

/-- Witness of claim C18: the example creator makes a `Reader` node with the two
attributes of the template and returns a null pointer for the unknown type
`Writer`. -/
theorem createItem_null_iff_unregistered_witness :
    exampleCreator.available_items_.find "Reader" = some ["in", "out"]
      ∧ (exampleCreator.createItem (Node.ops String ℚ) "Reader" "reader1" "stage0" ⟨1, 2⟩).1
          = some ⟨"Reader", "reader1", "stage0", ⟨1, 2⟩, ["in", "out"]⟩
      ∧ exampleCreator.available_items_.find "Writer" = none
      ∧ (exampleCreator.createItem (Node.ops String ℚ) "Writer" "writer1" "stage0" ⟨1, 2⟩).1
          = none
      ∧ (exampleCreator.createItem (Node.ops String ℚ) "Reader" "reader1" "stage0" ⟨1, 2⟩).2
          = exampleCreator :=
  ⟨by decide,
    (createItem_null_iff_unregistered (Node.ops String ℚ) exampleCreator "Reader" "reader1"
      "stage0" ⟨1, 2⟩).2.2.1 ["in", "out"] (by decide),
    by decide,
    (createItem_null_iff_unregistered (Node.ops String ℚ) exampleCreator "Writer" "writer1"
      "stage0" ⟨1, 2⟩).1.2 (by decide),
    (createItem_null_iff_unregistered (Node.ops String ℚ) exampleCreator "Reader" "reader1"
      "stage0" ⟨1, 2⟩).2.2.2⟩

end Piper
